import Mathlib

/-!
# linuxkit `push aws`: the publishing workflow of `pushAWSCmd`

A shallow embedding of `src/cmd/linuxkit/push_aws.go`.  The body of `RunE` is
translated into pure functions that take the invocation parameters and an
environment (the answers of the operating system and of the AWS SDK) and return
the list of calls made together with the way the invocation ended.

Conventions.

* `int64` and `int` values are `Int`; arithmetic that can leave the 64-bit range
  goes through `wrapInt64`.
* A `float64` value is represented by the real number it denotes.  Every float
  that occurs in this program is an integer (a converted `int64`) or such an
  integer divided by `2 ^ 30`, so the representation is exact and `Int` is
  enough: `toFloat64` is the rounding conversion, and the only division is
  immediately followed by `math.Ceil` (`ceilQuot`).
* A Go pointer that may be `nil` is an `Option`.
-/

namespace PushAWS

/-! ## Constants (push_aws.go:23-25) -/

/-- The constant `minSizeForMultipartUpload`, 4 GiB. -/
def minSizeForMultipartUpload : Int := 4 * 1024 * 1024 * 1024

/-- The constant `multipartUploadPartSize`, 1 GiB. -/
def multipartUploadPartSize : Int := 1024 * 1024 * 1024

/-! ## Machine arithmetic -/

/-- Two's-complement wrap of an integer into the `int64` range. -/
def wrapInt64 (x : Int) : Int := (x + 2 ^ 63) % 2 ^ 64 - 2 ^ 63

/-- Number of low bits of `m` that do not fit a 53-bit significand
(`fuel` halvings are tried; 64 is enough for every `int64` magnitude). -/
def f64Shift : Nat → Nat → Nat
  | 0, _ => 0
  | fuel + 1, m => if m < 2 ^ 53 then 0 else f64Shift fuel (m / 2) + 1

/-- Round a natural number to the nearest number with a 53-bit significand,
ties to the even significand (IEEE 754 round-to-nearest-even). -/
def f64Round (m : Nat) : Nat :=
  let s := f64Shift 64 m
  let q := m / 2 ^ s
  let r := m % 2 ^ s
  if 2 * r < 2 ^ s then q * 2 ^ s
  else if 2 ^ s < 2 * r then (q + 1) * 2 ^ s
  else if q % 2 = 0 then q * 2 ^ s
  else (q + 1) * 2 ^ s

/-- The Go conversion `float64(x)` of an `int64` value `x`; the result is the
value of the float, which is an integer. -/
def toFloat64 (x : Int) : Int :=
  if 0 ≤ x then (f64Round x.toNat : Int) else -(f64Round (-x).toNat : Int)

/-- The expression `math.Ceil(a / b)` for float values `a` and `b`, where `b` is
a power of two, so that the quotient is exact before the ceiling is taken. -/
def ceilQuot (a b : Int) : Int := -(-a / b)

/-- The function `math.Min` on finite floats. -/
def mathMin (a b : Int) : Int := if a ≤ b then a else b

/-- The Go conversion `int64(f)` (and `int(f)` on a 64-bit platform) of an
integer-valued float.  A value outside the range is implementation-specific;
the amd64 result is used (`numUploads_in_range` and `partEnd_exact` show that
the program never converts such a value). -/
def int64OfFloat64 (f : Int) : Int :=
  if -2 ^ 63 ≤ f ∧ f < 2 ^ 63 then f else -2 ^ 63

/-! ## The part computation of the multipart branch (push_aws.go:133-142) -/

/-- Line 133:
`int(math.Ceil(float64(*aws.Int64(fileSize)) / float64(multipartUploadPartSize)))`. -/
def numUploads (fileSize : Int) : Int :=
  int64OfFloat64 (ceilQuot (toFloat64 fileSize) (toFloat64 multipartUploadPartSize))

/-- Line 140: `start := int64(partNumber) * multipartUploadPartSize`. -/
def partStart (partNumber : Int) : Int :=
  wrapInt64 (partNumber * multipartUploadPartSize)

/-- Line 141:
`end := int64(math.Min(float64(start+multipartUploadPartSize), float64(fileSize)))`. -/
def partEnd (fileSize partNumber : Int) : Int :=
  int64OfFloat64
    (mathMin (toFloat64 (wrapInt64 (partStart partNumber + multipartUploadPartSize)))
      (toFloat64 fileSize))

/-- Line 142: `length := end - start`. -/
def partLength (fileSize partNumber : Int) : Int :=
  wrapInt64 (partEnd fileSize partNumber - partStart partNumber)

/-! ## Errors -/

/-- A Go `error` value. -/
inductive GoError where
  /-- An error returned by the operating system or by the AWS SDK. -/
  | lib (msg : String)
  /-- The result of `fmt.Errorf` without `%w`; `msg` is the formatted text. -/
  | errorf (msg : String)
  /-- The result of `fmt.Errorf` with `%w`; `msg` is the formatted text and
  `inner` the wrapped error. -/
  | wrapf (msg : String) (inner : GoError)
  deriving DecidableEq, Repr

/-- The method `Error()`: the message of an error. -/
def GoError.Error : GoError → String
  | .lib msg => msg
  | .errorf msg => msg
  | .wrapf msg _ => msg

/-- The function `errors.Unwrap`. -/
def GoError.Unwrap : GoError → Option GoError
  | .wrapf _ inner => some inner
  | _ => none

/-! ## Requests and responses of the SDK -/

/-- The type `s3.CompletedPart`. -/
structure CompletedPart where
  ETag : Option String
  PartNumber : Int
  deriving DecidableEq, Repr

/-- The type `ec2.SnapshotTaskDetail`, the fields the program reads. -/
structure SnapshotTaskDetail where
  Status : Option String
  Progress : Option String
  SnapshotId : Option String
  deriving DecidableEq, Repr

/-- The type `ec2.ImportSnapshotTask`. -/
structure ImportSnapshotTask where
  SnapshotTaskDetail : Option SnapshotTaskDetail
  deriving DecidableEq, Repr

/-- The type `ec2.EbsBlockDevice`. -/
structure EbsBlockDevice where
  DeleteOnTermination : Option Bool
  SnapshotId : Option String
  VolumeType : Option String
  deriving DecidableEq, Repr

/-- The type `ec2.BlockDeviceMapping`. -/
structure BlockDeviceMapping where
  DeviceName : Option String
  Ebs : Option EbsBlockDevice
  deriving DecidableEq, Repr

/-- The type `ec2.RegisterImageInput`, the fields the program can set. -/
structure RegisterImageInput where
  Name : Option String
  Architecture : Option String
  BlockDeviceMappings : List BlockDeviceMapping
  Description : Option String
  RootDeviceName : Option String
  VirtualizationType : Option String
  EnaSupport : Option Bool
  SriovNetSupport : Option String
  BootMode : Option String
  TpmSupport : Option String
  deriving DecidableEq, Repr

/-- A call made by `RunE` to the SDK, to the source file or to the clock, with
its arguments. -/
inductive Call where
  | PutObjectWithContext (timeout : Int) (bucket key : String) (contentLength : Int)
      (contentType : String)
  | CreateMultipartUploadWithContext (timeout : Int) (bucket key : String)
  | ReadAt (length start : Int)
  | UploadPart (bucket key : String) (bodyStart bodyLength : Int) (partNumber : Int)
      (uploadId : String)
  | AbortMultipartUploadRequest (uploadId : String)
  | CompleteMultipartUpload (bucket key uploadId : String)
      (parts : List (Option CompletedPart))
  | ImportSnapshot (description diskDescription format bucket key : String)
  | DescribeImportSnapshotTasks (importTaskId : Option String)
  | Sleep (seconds : Nat)
  | RegisterImage (input : RegisterImageInput)
  deriving DecidableEq, Repr

/-- Whether a call sends a request to AWS.  In aws-sdk-go every operation `Op`
has a method `Op` (and `OpWithContext`) that builds the request and sends it,
and a method `OpRequest` that only builds the `request.Request` value and
returns it; nothing is sent until `Send` is called on that value.  `RunE`
calls `AbortMultipartUploadRequest` and drops the value. -/
def Call.sent : Call → Bool
  | .PutObjectWithContext .. => true
  | .CreateMultipartUploadWithContext .. => true
  | .ReadAt .. => false
  | .UploadPart .. => true
  | .AbortMultipartUploadRequest .. => false
  | .CompleteMultipartUpload .. => true
  | .ImportSnapshot .. => true
  | .DescribeImportSnapshotTasks .. => true
  | .Sleep .. => false
  | .RegisterImage .. => true

/-- Whether a call concerns the abort of a multipart upload. -/
def Call.isAbort : Call → Bool
  | .AbortMultipartUploadRequest .. => true
  | _ => false

/-- Whether a call is an `UploadPart`. -/
def Call.isUploadPart : Call → Bool
  | .UploadPart .. => true
  | _ => false

/-- Whether a call is a `RegisterImage`. -/
def Call.isRegisterImage : Call → Bool
  | .RegisterImage .. => true
  | _ => false

/-- Whether a call belongs to what follows the part loop: completion of the
upload, snapshot import, status query or image registration. -/
def Call.isAfterUpload : Call → Bool
  | .CompleteMultipartUpload .. => true
  | .ImportSnapshot .. => true
  | .DescribeImportSnapshotTasks .. => true
  | .RegisterImage .. => true
  | _ => false

/-! ## Parameters, environment, outcome -/

/-- The values `RunE` works with: the argument `path`, the resolved values
`timeout`, `bucket` and `name` (lines 47-49; the helpers `getIntValue` and
`getStringValue` are outside the two source files) and the flag variables. -/
structure Params where
  path : String
  timeout : Int
  bucket : String
  name : String
  ena : Bool
  sriovNet : String
  uefi : Bool
  tpm : Bool
  deriving DecidableEq, Repr

/-- The answers of the world outside `RunE`. -/
structure Env where
  /-- The error of `session.NewSession()`, if any. -/
  NewSession : Option GoError
  /-- The error of `os.Open(path)`, if any. -/
  Open : Option GoError
  /-- The result of `f.Stat()`: the size of the file. -/
  Stat : Except GoError Int
  /-- The library function `filepath.Ext`. -/
  Ext : String → String
  /-- The composite `filepath.Base(strings.TrimSuffix(path, filepath.Ext(path)))`. -/
  DefaultName : String → String
  /-- The error of `PutObjectWithContext`, if any. -/
  PutObject : Option GoError
  /-- The result of `CreateMultipartUploadWithContext`: the output pointer and in
  it the `UploadId` pointer. -/
  CreateMultipartUpload : Except GoError (Option (Option String))
  /-- The error of `f.ReadAt(partData, start)` for a buffer of the given length
  and the given offset, if any. -/
  ReadAt : Int → Int → Option GoError
  /-- The result of `UploadPart` for a part number: the `ETag` pointer. -/
  UploadPart : Int → Except GoError (Option String)
  /-- The error of `CompleteMultipartUpload`, if any. -/
  CompleteMultipartUpload : Option GoError
  /-- The result of `ImportSnapshot`: the `ImportTaskId` pointer. -/
  ImportSnapshot : Except GoError (Option String)
  /-- The result of the status query number `tick` (counted from 0): the slice
  `ImportSnapshotTasks`. -/
  DescribeImportSnapshotTasks : Nat → Except GoError (List (Option ImportSnapshotTask))
  /-- The result of `RegisterImage`: the `ImageId` pointer. -/
  RegisterImage : Except GoError (Option String)

/-- How an invocation of `RunE` ends. -/
inductive Result where
  /-- The function returned `err` (`none` is `nil`, success). -/
  | returned (err : Option GoError)
  /-- A run-time panic (nil pointer dereference, `session.Must`). -/
  | panicked
  /-- The invocation has not ended: it is still inside the polling loop when the
  observation stops. -/
  | polling
  deriving DecidableEq, Repr

/-- An invocation observed from outside: the calls made, in order, and the end. -/
structure Run where
  trace : List Call
  result : Result
  deriving DecidableEq, Repr

/-! ## The workflow -/

/-- The body of the loop at lines 138-179, run `remaining` more times starting
with the loop variable equal to `partNumber`; `parts` is the slice allocated
at line 134.  The result is the list of calls made and either the filled slice
or the way `RunE` ended inside the loop. -/
def uploadLoop (env : Env) (bucket dst uploadId : String) (fileSize : Int) :
    Nat → Nat → List (Option CompletedPart) →
      List Call × Except Result (List (Option CompletedPart))
  | 0, _, parts => ([], .ok parts)
  | remaining + 1, partNumber, parts =>
    let start := partStart partNumber
    let length := partLength fileSize partNumber
    -- line 148: `make([]byte, length)` panics on a negative length
    if length < 0 then ([], .error .panicked)
    else
      match env.ReadAt length start with
      | some err => ([.ReadAt length start], .error (.returned (some err)))
      | none =>
        let upload :=
          Call.UploadPart bucket dst start length (wrapInt64 (partNumber + 1)) uploadId
        match env.UploadPart (wrapInt64 (partNumber + 1)) with
        | .error err =>
          ([.ReadAt length start, upload, .AbortMultipartUploadRequest uploadId],
            .error (.returned (some (.wrapf
              ("Error uploading part " ++ toString partNumber ++ " : " ++ err.Error) err))))
        | .ok etag =>
          let rest := uploadLoop env bucket dst uploadId fileSize remaining (partNumber + 1)
            (parts.set partNumber (some ⟨etag, wrapInt64 (partNumber + 1)⟩))
          (.ReadAt length start :: upload :: rest.1, rest.2)

/-- The branch at lines 92-108: one `PutObject` of the whole file.  The second
component is the way `RunE` ended, or `none` when the workflow goes on. -/
def simpleUpload (p : Params) (env : Env) (dst : String) (fileSize : Int) :
    List Call × Option Result :=
  let put := Call.PutObjectWithContext p.timeout p.bucket dst fileSize
    "application/octet-stream"
  match env.PutObject with
  | some err => ([put], some (.returned (some (.errorf ("Error uploading to S3: " ++ err.Error)))))
  | none => ([put], none)

/-- Lines 118-127: the variable `uploadId` after the nil checks on the output of
`CreateMultipartUpload` and on its `UploadId`. -/
def uploadIdOf : Option (Option String) → String
  | some (some id) => id
  | _ => ""

/-- The branch at lines 109-201: the multipart upload. -/
def multipartUpload (p : Params) (env : Env) (dst : String) (fileSize : Int) :
    List Call × Option Result :=
  let create := Call.CreateMultipartUploadWithContext p.timeout p.bucket dst
  match env.CreateMultipartUpload with
  | .error err => ([create], some (.returned (some err)))
  | .ok createOutput =>
    let uploadId := uploadIdOf createOutput
    if uploadId = "" then
      ([create], some (.returned (some
        (.errorf "No upload id found in start upload request: <nil>"))))
    else
      let n := numUploads fileSize
      -- line 134: `make` panics on a negative length
      if n < 0 then ([create], some .panicked)
      else
        match uploadLoop env p.bucket dst uploadId fileSize n.toNat 0
            (List.replicate n.toNat none) with
        | (calls, .error r) => (create :: calls, some r)
        | (calls, .ok parts) =>
          let complete := Call.CompleteMultipartUpload p.bucket dst uploadId parts
          match env.CompleteMultipartUpload with
          | some err =>
            (create :: calls ++ [complete], some (.returned (some
              (.wrapf ("Error completing upload: " ++ err.Error) err))))
          | none => (create :: calls ++ [complete], none)

/-- Lines 92-201: the choice between the two upload branches. -/
def uploadPhase (p : Params) (env : Env) (dst : String) (fileSize : Int) :
    List Call × Option Result :=
  if fileSize ≤ minSizeForMultipartUpload then simpleUpload p env dst fileSize
  else multipartUpload p env dst fileSize

/-- How the loop at lines 224-249 is left. -/
inductive PollOut where
  /-- Through `break`, with the value assigned to `snapshotID`. -/
  | completed (snapshotID : Option String)
  /-- The function `RunE` ended inside the loop, or the loop is still running. -/
  | stop (r : Result)
  deriving DecidableEq, Repr

/-- One iteration of the loop at lines 224-249 after the status query has
answered `response`: the way the loop is left, or `none` when the iteration
ends with the sleep of line 244 and `continue`. -/
def pollStep (importTaskId : Option String)
    (response : Except GoError (List (Option ImportSnapshotTask))) : Option PollOut :=
  match response with
  | .error err =>
    some (.stop (.returned (some
      (.errorf ("Error getting import snapshot status: " ++ err.Error)))))
  | .ok [] =>
    some (.stop (.returned (some (.errorf "Unable to get import snapshot task status"))))
  -- line 238 dereferences the task, its `SnapshotTaskDetail` and its `Status`
  | .ok (none :: _) => some (.stop .panicked)
  | .ok (some ⟨none⟩ :: _) => some (.stop .panicked)
  | .ok (some ⟨some detail⟩ :: _) =>
    match detail.Status with
    | none => some (.stop .panicked)
    | some status =>
      if status ≠ "completed" then
        -- line 243 dereferences `resp.ImportTaskId`
        match importTaskId with
        | none => some (.stop .panicked)
        | some _ => none
      else some (.completed detail.SnapshotId)

/-- The loop at lines 224-249, observed for at most `fuel` iterations, the next
status query being query number `tick`.  The loop reads neither the clock nor
the context `ctx`. -/
def pollLoop (env : Env) (importTaskId : Option String) : Nat → Nat → List Call × PollOut
  | 0, _ => ([], .stop .polling)
  | fuel + 1, tick =>
    match pollStep importTaskId (env.DescribeImportSnapshotTasks tick) with
    | some out => ([.DescribeImportSnapshotTasks importTaskId], out)
    | none =>
      let rest := pollLoop env importTaskId fuel (tick + 1)
      (.DescribeImportSnapshotTasks importTaskId :: .Sleep 60 :: rest.1, rest.2)

/-- The request built at lines 257-281. -/
def regParams (p : Params) (name : String) (snapshotID sriovNetFlag : Option String) :
    RegisterImageInput :=
  let base : RegisterImageInput :=
    { Name := some name
      Architecture := some "x86_64"
      BlockDeviceMappings :=
        [{ DeviceName := some "/dev/sda1"
           Ebs := some
             { DeleteOnTermination := some true
               SnapshotId := snapshotID
               VolumeType := some "standard" } }]
      Description := some ("LinuxKit: " ++ name ++ " image")
      RootDeviceName := some "/dev/sda1"
      VirtualizationType := some "hvm"
      EnaSupport := some p.ena
      SriovNetSupport := sriovNetFlag
      BootMode := none
      TpmSupport := none }
  if p.uefi then
    if p.tpm then { base with BootMode := some "uefi", TpmSupport := some "v2.0" }
    else { base with BootMode := some "uefi" }
  else base

/-- Lines 251-288: the check of `snapshotID` and the registration. -/
def register (p : Params) (env : Env) (name : String)
    (snapshotID sriovNetFlag : Option String) : Run :=
  match snapshotID with
  | none => ⟨[], .returned (some (.errorf "SnapshotID unavailable after import completed"))⟩
  | some _ =>
    let call := Call.RegisterImage (regParams p name snapshotID sriovNetFlag)
    match env.RegisterImage with
    | .error err =>
      ⟨[call], .returned (some
        (.errorf ("Error registering the image: " ++ name ++ "; " ++ err.Error)))⟩
    -- line 287 dereferences `regResp.ImageId`
    | .ok none => ⟨[call], .panicked⟩
    | .ok (some _) => ⟨[call], .returned none⟩

/-- Lines 203-288: snapshot import, polling and registration. -/
def importAndRegister (p : Params) (env : Env) (name dst : String)
    (sriovNetFlag : Option String) (fuel : Nat) : Run :=
  let imp := Call.ImportSnapshot ("LinuxKit: " ++ name) ("LinuxKit: " ++ name ++ " disk")
    "raw" p.bucket dst
  match env.ImportSnapshot with
  | .error err =>
    ⟨[imp], .returned (some (.errorf ("Error importing snapshot: " ++ err.Error)))⟩
  | .ok importTaskId =>
    match pollLoop env importTaskId fuel 0 with
    | (calls, .stop r) => ⟨imp :: calls, r⟩
    | (calls, .completed snapshotID) =>
      let reg := register p env name snapshotID sriovNetFlag
      ⟨imp :: calls ++ reg.trace, reg.result⟩

/-- Lines 45-90: everything before the upload.  The result is the way `RunE`
ended, or the values `name`, `dst` and `fileSize` the workflow goes on with.
No call to AWS is made here. -/
def preamble (p : Params) (env : Env) : Except Result (String × String × Int) :=
  -- lines 51-54: `*sriovNetFlag = sriovNet` writes through a nil pointer
  if p.sriovNet ≠ "" then .error .panicked
  else if !p.uefi && p.tpm then
    .error (.returned (some (.errorf "Cannot use tpm without uefi mode")))
  else
    -- line 60: `session.Must` panics on an error
    match env.NewSession with
    | some _ => .error .panicked
    | none =>
      if p.bucket = "" then
        .error (.returned (some (.errorf "Please provide the bucket to use")))
      else
        match env.Open with
        | some err => .error (.returned (some (.errorf ("Error opening file: " ++ err.Error))))
        | none =>
          let name := if p.name = "" then env.DefaultName p.path else p.name
          match env.Stat with
          | .error err =>
            .error (.returned (some
              (.errorf ("Error reading file information: " ++ err.Error))))
          | .ok fileSize => .ok (name, name ++ env.Ext p.path, fileSize)

/-- The function `RunE` of `pushAWSCmd` (lines 44-289), observed for at most
`fuel` iterations of its polling loop.  The pointer `sriovNetFlag` is `nil`
whenever the workflow goes beyond line 54. -/
def RunE (p : Params) (env : Env) (fuel : Nat) : Run :=
  match preamble p env with
  | .error r => ⟨[], r⟩
  | .ok (name, dst, fileSize) =>
    match uploadPhase p env dst fileSize with
    | (calls, some r) => ⟨calls, r⟩
    | (calls, none) =>
      let rest := importAndRegister p env name dst none fuel
      ⟨calls ++ rest.trace, rest.result⟩

/-! ## Notions used to state the properties -/

/-- One part of an upload: the part number sent to the storage service and the
byte range read from the file. -/
structure PartDescriptor where
  partNumber : Int
  byteOffset : Int
  byteLength : Int
  deriving DecidableEq, Repr

/-- An upload plan: one `PutObject` of the given content length, or the list of
parts of a multipart upload. -/
inductive Plan where
  | simple (contentLength : Int)
  | multipart (parts : List PartDescriptor)
  deriving DecidableEq, Repr

/-- The plan that `RunE` carries out for a file of the given size: the test of
line 92 and, in the multipart branch, the values that lines 133-158 compute in
iteration `i` of the loop. -/
def uploadPlan (fileSize : Int) : Plan :=
  if fileSize ≤ minSizeForMultipartUpload then .simple fileSize
  else .multipart ((List.range (numUploads fileSize).toNat).map fun i : Nat =>
    ⟨wrapInt64 (i + 1), partStart i, partLength fileSize i⟩)

/-- The plan of the specification for threshold 4 GiB and part size 1 GiB, in
exact integer arithmetic: `ceil(totalSize / partSize)` parts, part `i` at
offset `i * partSize` of length `min(partSize, totalSize - offset)`, uploaded
as part number `i + 1`. -/
def referencePlan (totalSize : Int) : Plan :=
  if totalSize ≤ 4 * 2 ^ 30 then .simple totalSize
  else .multipart ((List.range ((totalSize + (2 ^ 30 - 1)) / 2 ^ 30).toNat).map fun i : Nat =>
    ⟨i + 1, i * 2 ^ 30, min (2 ^ 30) (totalSize - i * 2 ^ 30)⟩)

/-- The two calls of iteration `i` of the part loop when the read succeeds. -/
def partCalls (bucket dst uploadId : String) (fileSize : Int) (i : Nat) : List Call :=
  [.ReadAt (partLength fileSize i) (partStart i),
   .UploadPart bucket dst (partStart i) (partLength fileSize i) (wrapInt64 (i + 1)) uploadId]

/-- The part list of a completed upload of `count` parts in which the upload of
part index `i` returned the tag `etag i`: entry `i` has part number `i + 1`. -/
def completedParts (etag : Nat → Option String) (count : Nat) : List (Option CompletedPart) :=
  (List.range count).map fun i => some ⟨etag i, (i : Int) + 1⟩

/-- Whether a call is a `CompleteMultipartUpload`. -/
def Call.isComplete : Call → Bool
  | .CompleteMultipartUpload .. => true
  | _ => false

/-- Whether a call is a `DescribeImportSnapshotTasks`. -/
def Call.isDescribe : Call → Bool
  | .DescribeImportSnapshotTasks .. => true
  | _ => false

/-- Whether a call is a `Sleep`. -/
def Call.isSleep : Call → Bool
  | .Sleep .. => true
  | _ => false

/-- A status response on which the polling loop sleeps and queries again: the
query succeeded, there is a first task, and its status is present and is not
`"completed"`. -/
def inProgress : Except GoError (List (Option ImportSnapshotTask)) → Bool
  | .ok (some ⟨some ⟨some status, _, _⟩⟩ :: _) => status != "completed"
  | _ => false

/-- The calls of `k` iterations of the polling loop that end in a sleep. -/
def waitCalls (importTaskId : Option String) : Nat → List Call
  | 0 => []
  | k + 1 => .DescribeImportSnapshotTasks importTaskId :: .Sleep 60 :: waitCalls importTaskId k

/-- The registration request of the specification for name `N`, snapshot `S`
and the flags. -/
def referenceRequest (N S : String) (ena : Bool) (sriov : String) (uefi tpm : Bool) :
    RegisterImageInput :=
  { Name := some N
    Architecture := some "x86_64"
    BlockDeviceMappings :=
      [{ DeviceName := some "/dev/sda1"
         Ebs := some
           { DeleteOnTermination := some true
             SnapshotId := some S
             VolumeType := some "standard" } }]
    Description := some ("LinuxKit: " ++ N ++ " image")
    RootDeviceName := some "/dev/sda1"
    VirtualizationType := some "hvm"
    EnaSupport := some ena
    SriovNetSupport := if sriov = "" then none else some sriov
    BootMode := if uefi then some "uefi" else none
    TpmSupport := if uefi && tpm then some "v2.0" else none }

/-! ## Concrete invocations -/

/-- An invocation with bucket `b`, image name `img`, timeout 600 and no flag. -/
def exampleParams : Params :=
  { path := "/tmp/img.raw", timeout := 600, bucket := "b", name := "img"
    ena := false, sriovNet := "", uefi := false, tpm := false }

/-- The invocation `exampleParams` with `--ena`, `--uefi` and `--tpm`. -/
def uefiTpmParams : Params :=
  { exampleParams with ena := true, uefi := true, tpm := true }

/-- The invocation `exampleParams` with `--sriov simple`, `--uefi` and `--tpm`. -/
def sriovParams : Params :=
  { exampleParams with sriovNet := "simple", uefi := true, tpm := true }

/-- The invocation `exampleParams` with `--sriov simple` and `--tpm` but without
`--uefi`. -/
def sriovTpmParams : Params :=
  { exampleParams with sriovNet := "simple", uefi := false, tpm := true }

/-- A status response with one task of the given status and snapshot. -/
def statusResponse (status : String) (snapshotId : Option String) :
    Except GoError (List (Option ImportSnapshotTask)) :=
  .ok [some ⟨some ⟨some status, none, snapshotId⟩⟩]

/-- A world in which the file has 5 GiB and every call succeeds: the import task
is completed with snapshot `snap-1` at the first status query. -/
def exampleEnv : Env :=
  { NewSession := none
    Open := none
    Stat := .ok (5 * 2 ^ 30)
    Ext := fun _ => ".raw"
    DefaultName := fun _ => "img"
    PutObject := none
    CreateMultipartUpload := .ok (some (some "upload-1"))
    ReadAt := fun _ _ => none
    UploadPart := fun partNumber => .ok (some ("etag-" ++ toString partNumber))
    CompleteMultipartUpload := none
    ImportSnapshot := .ok (some "import-1")
    DescribeImportSnapshotTasks := fun _ => statusResponse "completed" (some "snap-1")
    RegisterImage := .ok (some "ami-1") }

/-- The world `exampleEnv` in which the upload of part index 3 (part number 4)
fails. -/
def envPartThreeFails : Env :=
  { exampleEnv with
    UploadPart := fun partNumber =>
      if partNumber = 4 then .error (.lib "connection reset")
      else .ok (some ("etag-" ++ toString partNumber)) }

/-- The world `exampleEnv` in which reading part index 2 from the file fails. -/
def envReadTwoFails : Env :=
  { exampleEnv with
    ReadAt := fun _ start => if start = 2 * 2 ^ 30 then some (.lib "input/output error") else none }

/-- The world `exampleEnv` in which the import task stays `active` for ever. -/
def envAlwaysActive : Env :=
  { exampleEnv with DescribeImportSnapshotTasks := fun _ => statusResponse "active" none }

/-- The world `exampleEnv` in which the import task is `active` at the first
two status queries and then answers as given. -/
def envThirdQuery (answer : Except GoError (List (Option ImportSnapshotTask))) : Env :=
  { exampleEnv with
    DescribeImportSnapshotTasks := fun tick =>
      if tick < 2 then statusResponse "active" none else answer }

/-! ## Arithmetic of the part computation -/

theorem f64Shift_eq_zero (fuel m : Nat) (h : m < 2 ^ 53) : f64Shift fuel m = 0 := by
  cases fuel with
  | zero => rfl
  | succ fuel => unfold f64Shift; rw [if_pos h]

theorem f64Shift_le (fuel : Nat) : ∀ (k m : Nat), m < 2 ^ (53 + k) → f64Shift fuel m ≤ k := by
  induction fuel with
  | zero => intro k m _; simp [f64Shift]
  | succ fuel ih =>
    intro k m h
    unfold f64Shift
    split
    · omega
    · rename_i hm
      cases k with
      | zero => simp at h; omega
      | succ k =>
        have h2 : m / 2 < 2 ^ (53 + k) := by
          have : (2:Nat) ^ (53 + (k + 1)) = 2 * 2 ^ (53 + k) := by
            rw [← Nat.add_assoc, Nat.pow_succ]; ring
          omega
        have := ih k (m / 2) h2
        omega

theorem f64Shift_quot_lt (fuel : Nat) :
    ∀ m : Nat, m < 2 ^ (53 + fuel) → m / 2 ^ f64Shift fuel m < 2 ^ 53 := by
  induction fuel with
  | zero => intro m h; simpa [f64Shift] using h
  | succ fuel ih =>
    intro m h
    unfold f64Shift
    split
    · rename_i hm; simpa using hm
    · have h2 : m / 2 < 2 ^ (53 + fuel) := by
        have : (2:Nat) ^ (53 + (fuel + 1)) = 2 * 2 ^ (53 + fuel) := by
          rw [← Nat.add_assoc, Nat.pow_succ]; ring
        omega
      have := ih (m / 2) h2
      rw [Nat.pow_succ, Nat.mul_comm, ← Nat.div_div_eq_div_mul]
      exact this

theorem f64Round_of_lt (m : Nat) (h : m < 2 ^ 53) : f64Round m = m := by
  simp only [f64Round, f64Shift_eq_zero 64 m h, Nat.pow_zero, Nat.mod_one, Nat.div_one,
    Nat.mul_one, Nat.mul_zero]
  rw [if_pos (by decide)]

theorem f64Round_of_dvd (m : Nat) (hd : 2 ^ 30 ∣ m) (h : m < 2 ^ 63) : f64Round m = m := by
  have hs : f64Shift 64 m ≤ 10 := f64Shift_le 64 10 m (by simpa using h)
  have hdvd : 2 ^ f64Shift 64 m ∣ m :=
    Nat.dvd_trans (Nat.pow_dvd_pow 2 (by omega)) hd
  have hr : m % 2 ^ f64Shift 64 m = 0 := Nat.mod_eq_zero_of_dvd hdvd
  have hpos : 0 < 2 ^ f64Shift 64 m := Nat.pow_pos (by decide)
  simp only [f64Round, hr]
  rw [if_pos (by omega)]
  exact Nat.div_mul_cancel hdvd

theorem f64Round_le (m : Nat) (h : m < 2 ^ 63) : f64Round m ≤ 2 ^ 63 := by
  have hs : f64Shift 64 m ≤ 10 := f64Shift_le 64 10 m (by simpa using h)
  have hq : m / 2 ^ f64Shift 64 m < 2 ^ 53 :=
    f64Shift_quot_lt 64 m (lt_of_lt_of_le h (Nat.pow_le_pow_right (by decide) (by decide)))
  have hup : (m / 2 ^ f64Shift 64 m + 1) * 2 ^ f64Shift 64 m ≤ 2 ^ 63 := by
    calc (m / 2 ^ f64Shift 64 m + 1) * 2 ^ f64Shift 64 m
        ≤ 2 ^ 53 * 2 ^ f64Shift 64 m := Nat.mul_le_mul_right _ hq
      _ = 2 ^ (53 + f64Shift 64 m) := by rw [Nat.pow_add]
      _ ≤ 2 ^ 63 := Nat.pow_le_pow_right (by decide) (by omega)
  have hlow : m / 2 ^ f64Shift 64 m * 2 ^ f64Shift 64 m ≤ 2 ^ 63 :=
    le_trans (Nat.mul_le_mul_right _ (Nat.le_succ _)) hup
  simp only [f64Round]
  split_ifs <;> assumption

theorem toFloat64_partSize : toFloat64 multipartUploadPartSize = 2 ^ 30 := by decide

theorem toFloat64_of_le (x : Int) (h0 : 0 ≤ x) (h : x ≤ 2 ^ 53) : toFloat64 x = x := by
  rcases lt_or_eq_of_le h with hlt | heq
  · have hn : x.toNat < 2 ^ 53 := by omega
    simp only [toFloat64, if_pos h0, f64Round_of_lt _ hn]
    omega
  · subst heq; decide

theorem toFloat64_of_dvd (x : Int) (h0 : 0 ≤ x) (h : x < 2 ^ 63) (hd : (2 : Int) ^ 30 ∣ x) :
    toFloat64 x = x := by
  have hn : x.toNat < 2 ^ 63 := by omega
  have hdn : 2 ^ 30 ∣ x.toNat := by
    obtain ⟨c, hc⟩ := hd
    refine ⟨c.toNat, ?_⟩
    omega
  simp only [toFloat64, if_pos h0, f64Round_of_dvd _ hdn hn]
  omega

theorem toFloat64_bounds (x : Int) (h0 : 0 ≤ x) (h : x < 2 ^ 63) :
    0 ≤ toFloat64 x ∧ toFloat64 x ≤ 2 ^ 63 := by
  have hn : x.toNat < 2 ^ 63 := by omega
  have := f64Round_le _ hn
  simp only [toFloat64, if_pos h0]
  omega

theorem numUploads_in_range (n : Int) (h0 : 0 ≤ n) (h : n < 2 ^ 63) :
    numUploads n = ceilQuot (toFloat64 n) (2 ^ 30) ∧ 0 ≤ numUploads n ∧ numUploads n ≤ 2 ^ 33 := by
  obtain ⟨hR0, hR⟩ := toFloat64_bounds n h0 h
  simp only [numUploads, toFloat64_partSize, ceilQuot, int64OfFloat64]
  generalize toFloat64 n = R at *
  split_ifs <;> omega

theorem part_bounds (n : Int) (k : Nat) (h0 : 0 ≤ n) (h : n < 2 ^ 63)
    (hk : (k : Int) < numUploads n) :
    partStart k = k * 2 ^ 30 ∧ 1 ≤ partLength n k ∧ partLength n k ≤ 2 ^ 30 := by
  obtain ⟨hR0, hR⟩ := toFloat64_bounds n h0 h
  obtain ⟨hN, _, hN33⟩ := numUploads_in_range n h0 h
  rw [hN] at hk
  have hstart : partStart k = k * 2 ^ 30 := by
    simp only [partStart, wrapInt64, multipartUploadPartSize]; omega
  refine ⟨hstart, ?_⟩
  by_cases hlast : (k : Int) + 1 < 2 ^ 33
  · have ha : toFloat64 ((k : Int) * 2 ^ 30 + 2 ^ 30) = (k : Int) * 2 ^ 30 + 2 ^ 30 :=
      toFloat64_of_dvd _ (by omega) (by omega) ⟨(k : Int) + 1, by ring⟩
    have hw : wrapInt64 (partStart k + multipartUploadPartSize) = (k : Int) * 2 ^ 30 + 2 ^ 30 := by
      rw [hstart]; simp only [wrapInt64, multipartUploadPartSize]; omega
    have hend : partEnd n k = mathMin ((k : Int) * 2 ^ 30 + 2 ^ 30) (toFloat64 n) := by
      unfold partEnd
      rw [hw, ha]
      simp only [mathMin, int64OfFloat64]
      split_ifs <;> omega
    unfold partLength
    rw [hend, hstart]
    simp only [mathMin, wrapInt64, ceilQuot] at hk ⊢
    generalize toFloat64 n = R at *
    split_ifs <;> omega
  · have hk' : (k : Int) = 2 ^ 33 - 1 := by
      simp only [ceilQuot] at hk hN33; omega
    have hw : wrapInt64 (partStart k + multipartUploadPartSize) = -2 ^ 63 := by
      rw [hstart, hk']; decide
    have hf : toFloat64 (-2 ^ 63) = -2 ^ 63 := by decide
    have hend : partEnd n k = -2 ^ 63 := by
      unfold partEnd
      rw [hw, hf]
      simp only [mathMin, int64OfFloat64]
      split_ifs <;> omega
    unfold partLength
    rw [hend, hstart, hk']
    decide

theorem wrapInt64_succ (i : Nat) (h : (i : Int) < 2 ^ 33) : wrapInt64 (i + 1) = i + 1 := by
  simp only [wrapInt64]; omega

theorem partEnd_exact (n : Int) (k : Nat) (h0 : 0 ≤ n) (h : n < 2 ^ 63)
    (hk : (k : Int) < numUploads n) :
    partEnd n k =
      mathMin (toFloat64 (wrapInt64 (partStart k + multipartUploadPartSize))) (toFloat64 n) := by
  obtain ⟨hR0, hR⟩ := toFloat64_bounds n h0 h
  obtain ⟨hN, _, hN33⟩ := numUploads_in_range n h0 h
  rw [hN] at hk
  have hstart : partStart k = k * 2 ^ 30 := by
    simp only [partStart, wrapInt64, multipartUploadPartSize]; omega
  by_cases hlast : (k : Int) + 1 < 2 ^ 33
  · have ha : toFloat64 ((k : Int) * 2 ^ 30 + 2 ^ 30) = (k : Int) * 2 ^ 30 + 2 ^ 30 :=
      toFloat64_of_dvd _ (by omega) (by omega) ⟨(k : Int) + 1, by ring⟩
    have hw : wrapInt64 (partStart k + multipartUploadPartSize) = (k : Int) * 2 ^ 30 + 2 ^ 30 := by
      rw [hstart]; simp only [wrapInt64, multipartUploadPartSize]; omega
    unfold partEnd
    rw [hw, ha]
    simp only [mathMin, int64OfFloat64]
    split_ifs <;> omega
  · have hk' : (k : Int) = 2 ^ 33 - 1 := by
      simp only [ceilQuot] at hk hN33; omega
    have hw : wrapInt64 (partStart k + multipartUploadPartSize) = -2 ^ 63 := by
      rw [hstart, hk']; decide
    have hf : toFloat64 (-2 ^ 63) = -2 ^ 63 := by decide
    unfold partEnd
    rw [hw, hf]
    simp only [mathMin, int64OfFloat64]
    split_ifs <;> omega

theorem numUploads_exact (n : Int) (h0 : 0 ≤ n) (h : n ≤ 2 ^ 53) :
    numUploads n = (n + (2 ^ 30 - 1)) / 2 ^ 30 := by
  rw [(numUploads_in_range n h0 (by omega)).1, toFloat64_of_le n h0 h]
  simp only [ceilQuot]
  omega

theorem part_exact (n : Int) (k : Nat) (h0 : 0 ≤ n) (h : n ≤ 2 ^ 53)
    (hk : (k : Int) < numUploads n) :
    wrapInt64 ((k : Int) + 1) = k + 1 ∧ partStart k = k * 2 ^ 30 ∧
      partLength n k = min (2 ^ 30) (n - k * 2 ^ 30) := by
  have hmax : n < 2 ^ 63 := by omega
  have hend := partEnd_exact n k h0 hmax hk
  have hstart := (part_bounds n k h0 hmax hk).1
  rw [numUploads_exact n h0 h] at hk
  have ha : toFloat64 ((k : Int) * 2 ^ 30 + 2 ^ 30) = (k : Int) * 2 ^ 30 + 2 ^ 30 :=
    toFloat64_of_dvd _ (by omega) (by omega) ⟨(k : Int) + 1, by ring⟩
  have hw : wrapInt64 (partStart k + multipartUploadPartSize) = (k : Int) * 2 ^ 30 + 2 ^ 30 := by
    rw [hstart]; simp only [wrapInt64, multipartUploadPartSize]; omega
  rw [hw, ha, toFloat64_of_le n h0 h] at hend
  refine ⟨wrapInt64_succ k (by omega), hstart, ?_⟩
  unfold partLength
  rw [hend, hstart]
  simp only [mathMin, wrapInt64]
  split_ifs <;> omega

/-- Below `2 ^ 53` bytes the plan that `RunE` carries out is the reference plan:
the float arithmetic is exact there. -/
theorem uploadPlan_eq_referencePlan (n : Int) (h1 : 1 ≤ n) (h : n ≤ 2 ^ 53) :
    uploadPlan n = referencePlan n := by
  have h0 : 0 ≤ n := by omega
  unfold uploadPlan referencePlan
  have hmin : minSizeForMultipartUpload = 4 * 2 ^ 30 := by decide
  rw [hmin]
  split_ifs with hsmall
  · rfl
  · rw [← numUploads_exact n h0 h]
    refine congrArg Plan.multipart (List.map_congr_left ?_)
    intro i hi
    rw [List.mem_range] at hi
    have hN := (numUploads_in_range n h0 (by omega)).2.1
    obtain ⟨hw, hs, hl⟩ := part_exact n i h0 h (by omega)
    rw [hw, hs, hl]

/-- Below `2 ^ 53` bytes the byte ranges of the multipart loop are contiguous and
cover the file exactly: the first starts at 0, each range but the last has
1 GiB and is followed by the next, the last has between 1 byte and 1 GiB and
ends at the end of the file. -/
theorem ranges_cover_below_2_53 (n : Int) (hbig : minSizeForMultipartUpload < n)
    (h : n ≤ 2 ^ 53) :
    partStart 0 = 0 ∧
      (∀ k : Nat, (k : Int) + 1 < numUploads n →
        partLength n k = 2 ^ 30 ∧ partStart ((k : Int) + 1) = partStart k + partLength n k) ∧
      (∀ k : Nat, (k : Int) + 1 = numUploads n →
        1 ≤ partLength n k ∧ partLength n k ≤ 2 ^ 30 ∧ partStart k + partLength n k = n) := by
  have h0 : 0 ≤ n := by simp only [minSizeForMultipartUpload] at hbig; omega
  have hN := numUploads_exact n h0 h
  refine ⟨by decide, ?_, ?_⟩
  · intro k hk
    obtain ⟨_, hs, hl⟩ := part_exact n k h0 h (by omega)
    have hs' := (part_exact n (k + 1) h0 h (by push_cast; omega)).2.1
    push_cast at hs'
    rw [hs', hs, hl]
    rw [hN] at hk
    omega
  · intro k hk
    obtain ⟨_, hs, hl⟩ := part_exact n k h0 h (by omega)
    rw [hs, hl]
    rw [hN] at hk
    omega

/-- Below `2 ^ 53` bytes the lengths of the parts sum to the size of the file. -/
theorem lengths_sum_below_2_53 (n : Int) (hbig : minSizeForMultipartUpload < n)
    (h : n ≤ 2 ^ 53) :
    ((List.range (numUploads n).toNat).map fun i : Nat => partLength n i).sum = n := by
  have h0 : 0 ≤ n := by simp only [minSizeForMultipartUpload] at hbig; omega
  have hN := numUploads_exact n h0 h
  have hpre : ∀ m : Nat, (m : Int) ≤ numUploads n →
      ((List.range m).map fun i : Nat => partLength n i).sum = min ((m : Int) * 2 ^ 30) n := by
    intro m
    induction m with
    | zero => intro _; simp; omega
    | succ m ih =>
      intro hm
      have hl := (part_exact n m h0 h (by push_cast at hm; omega)).2.2
      rw [List.range_succ, List.map_append, List.sum_append, ih (by push_cast at hm; omega)]
      simp only [List.map_cons, List.map_nil, List.sum_cons, List.sum_nil, hl]
      push_cast at hm ⊢
      rw [hN] at hm
      omega
  have := hpre (numUploads n).toNat (by omega)
  rw [this]
  simp only [minSizeForMultipartUpload] at hbig
  rw [hN]
  omega

/-! ## The part loop -/

theorem uploadLoop_all_ok (env : Env) (bucket dst u : String) (n : Int)
    (etag : Nat → Option String) :
    ∀ (rem k : Nat) (done : List (Option CompletedPart)),
      done.length = k →
      (∀ i, k ≤ i → i < k + rem →
        0 ≤ partLength n i ∧ env.ReadAt (partLength n i) (partStart i) = none ∧
          env.UploadPart (wrapInt64 (i + 1)) = .ok (etag i)) →
      uploadLoop env bucket dst u n rem k (done ++ List.replicate rem none) =
        ((List.range' k rem).flatMap (partCalls bucket dst u n),
          .ok (done ++ (List.range' k rem).map fun i =>
            some ⟨etag i, wrapInt64 (i + 1)⟩)) := by
  intro rem
  induction rem with
  | zero => intro k done _ _; simp [uploadLoop]
  | succ rem ih =>
    intro k done hlen hall
    obtain ⟨hpos, hread, hup⟩ := hall k (le_refl _) (by omega)
    have hset : (done ++ List.replicate (rem + 1) none).set k
        (some ⟨etag k, wrapInt64 (k + 1)⟩) =
        (done ++ [some ⟨etag k, wrapInt64 (k + 1)⟩]) ++ List.replicate rem none := by
      subst hlen
      simp [List.replicate_succ]
    have hrec := ih (k + 1) (done ++ [some ⟨etag k, wrapInt64 (k + 1)⟩])
      (by simp [hlen]) (fun i h1 h2 => hall i (by omega) (by omega))
    unfold uploadLoop
    simp only [if_neg (not_lt.mpr hpos), hread, hup, hset]
    rw [hrec]
    simp [List.range'_succ, partCalls]

theorem uploadLoop_upload_fails (env : Env) (bucket dst u : String) (n : Int) (e : GoError)
    (k : Nat) (hpos : 0 ≤ partLength n k)
    (hread : env.ReadAt (partLength n k) (partStart k) = none)
    (hfail : env.UploadPart (wrapInt64 (k + 1)) = .error e) :
    ∀ (rem j : Nat) (parts : List (Option CompletedPart)),
      j ≤ k → k < j + rem →
      (∀ i, j ≤ i → i < k →
        0 ≤ partLength n i ∧ env.ReadAt (partLength n i) (partStart i) = none ∧
          ∃ etag, env.UploadPart (wrapInt64 (i + 1)) = .ok etag) →
      uploadLoop env bucket dst u n rem j parts =
        ((List.range' j (k - j)).flatMap (partCalls bucket dst u n) ++
            (partCalls bucket dst u n k ++ [.AbortMultipartUploadRequest u]),
          .error (.returned (some (.wrapf
            ("Error uploading part " ++ toString k ++ " : " ++ e.Error) e)))) := by
  intro rem
  induction rem with
  | zero => intro j parts h1 h2; omega
  | succ rem ih =>
    intro j parts h1 h2 hall
    rcases Nat.eq_or_lt_of_le h1 with heq | hlt
    · subst heq
      unfold uploadLoop
      simp only [if_neg (not_lt.mpr hpos), hread, hfail]
      simp [partCalls]
    · obtain ⟨hp, hr, etag, hu⟩ := hall j (le_refl _) hlt
      have hrec := ih (j + 1) (parts.set j (some ⟨etag, wrapInt64 (j + 1)⟩)) hlt (by omega)
        (fun i h3 h4 => hall i (by omega) h4)
      unfold uploadLoop
      simp only [if_neg (not_lt.mpr hp), hr, hu]
      rw [hrec]
      have hkj : k - j = (k - (j + 1)) + 1 := by omega
      rw [hkj, List.range'_succ]
      simp [partCalls]

theorem uploadLoop_read_fails (env : Env) (bucket dst u : String) (n : Int) (e : GoError)
    (k : Nat) (hpos : 0 ≤ partLength n k)
    (hread : env.ReadAt (partLength n k) (partStart k) = some e) :
    ∀ (rem j : Nat) (parts : List (Option CompletedPart)),
      j ≤ k → k < j + rem →
      (∀ i, j ≤ i → i < k →
        0 ≤ partLength n i ∧ env.ReadAt (partLength n i) (partStart i) = none ∧
          ∃ etag, env.UploadPart (wrapInt64 (i + 1)) = .ok etag) →
      uploadLoop env bucket dst u n rem j parts =
        ((List.range' j (k - j)).flatMap (partCalls bucket dst u n) ++
            [.ReadAt (partLength n k) (partStart k)],
          .error (.returned (some e))) := by
  intro rem
  induction rem with
  | zero => intro j parts h1 h2; omega
  | succ rem ih =>
    intro j parts h1 h2 hall
    rcases Nat.eq_or_lt_of_le h1 with heq | hlt
    · subst heq
      unfold uploadLoop
      simp only [if_neg (not_lt.mpr hpos), hread]
      simp
    · obtain ⟨hp, hr, etag, hu⟩ := hall j (le_refl _) hlt
      have hrec := ih (j + 1) (parts.set j (some ⟨etag, wrapInt64 (j + 1)⟩)) hlt (by omega)
        (fun i h3 h4 => hall i (by omega) h4)
      unfold uploadLoop
      simp only [if_neg (not_lt.mpr hp), hr, hu]
      rw [hrec]
      have hkj : k - j = (k - (j + 1)) + 1 := by omega
      rw [hkj, List.range'_succ]
      simp [partCalls]

theorem uploadLoop_calls (env : Env) (bucket dst u : String) (n : Int) :
    ∀ (rem k : Nat) (parts : List (Option CompletedPart)),
      ∀ c ∈ (uploadLoop env bucket dst u n rem k parts).1, c.isAfterUpload = false := by
  intro rem
  induction rem with
  | zero => intro k parts c hc; simp [uploadLoop] at hc
  | succ rem ih =>
    intro k parts c hc
    by_cases hneg : partLength n k < 0
    · simp [uploadLoop, hneg] at hc
    · cases hr : env.ReadAt (partLength n k) (partStart k) with
      | some err =>
        simp [uploadLoop, hneg, hr] at hc
        subst hc; rfl
      | none =>
        cases hu : env.UploadPart (wrapInt64 (k + 1)) with
        | error err =>
          simp [uploadLoop, hneg, hr, hu] at hc
          rcases hc with h | h | h <;> subst h <;> rfl
        | ok etag =>
          simp [uploadLoop, hneg, hr, hu] at hc
          rcases hc with h | h | h
          · subst h; rfl
          · subst h; rfl
          · exact ih _ _ c h

theorem uploadLoop_no_sleep (env : Env) (bucket dst u : String) (n : Int) :
    ∀ (rem k : Nat) (parts : List (Option CompletedPart)),
      ∀ c ∈ (uploadLoop env bucket dst u n rem k parts).1, c.isSleep = false := by
  intro rem
  induction rem with
  | zero => intro k parts c hc; simp [uploadLoop] at hc
  | succ rem ih =>
    intro k parts c hc
    by_cases hneg : partLength n k < 0
    · simp [uploadLoop, hneg] at hc
    · cases hr : env.ReadAt (partLength n k) (partStart k) with
      | some err =>
        simp [uploadLoop, hneg, hr] at hc
        subst hc; rfl
      | none =>
        cases hu : env.UploadPart (wrapInt64 (k + 1)) with
        | error err =>
          simp [uploadLoop, hneg, hr, hu] at hc
          rcases hc with h | h | h <;> subst h <;> rfl
        | ok etag =>
          simp [uploadLoop, hneg, hr, hu] at hc
          rcases hc with h | h | h
          · subst h; rfl
          · subst h; rfl
          · exact ih _ _ c h

theorem uploadLoop_error (env : Env) (bucket dst u : String) (n : Int) :
    ∀ (rem k : Nat) (parts : List (Option CompletedPart)) (r : Result),
      (uploadLoop env bucket dst u n rem k parts).2 = .error r → r ≠ .returned none := by
  intro rem
  induction rem with
  | zero => intro k parts r h; simp [uploadLoop] at h
  | succ rem ih =>
    intro k parts r h
    by_cases hneg : partLength n k < 0
    · simp [uploadLoop, hneg] at h
      subst h; simp
    · cases hr : env.ReadAt (partLength n k) (partStart k) with
      | some err =>
        simp [uploadLoop, hneg, hr] at h
        subst h; simp
      | none =>
        cases hu : env.UploadPart (wrapInt64 (k + 1)) with
        | error err =>
          simp [uploadLoop, hneg, hr, hu] at h
          subst h; simp
        | ok etag =>
          simp [uploadLoop, hneg, hr, hu] at h
          exact ih _ _ r h

/-! ## The polling loop -/

theorem pollStep_inProgress (id : String)
    (response : Except GoError (List (Option ImportSnapshotTask)))
    (h : inProgress response = true) : pollStep (some id) response = none := by
  unfold inProgress at h
  split at h
  · rename_i status _ _ _
    have hs : status ≠ "completed" := by simpa using h
    simp [pollStep, hs]
  · simp at h

theorem pollStep_eq_none (id : Option String)
    (response : Except GoError (List (Option ImportSnapshotTask)))
    (h : pollStep id response = none) : inProgress response = true := by
  unfold pollStep at h
  split at h
  · simp at h
  · simp at h
  · simp at h
  · simp at h
  · rename_i detail rest
    split at h
    · simp at h
    · rename_i status hst
      split_ifs at h with hne
      · obtain ⟨st, pr, sn⟩ := detail
        simp only at hst
        subst hst
        simpa [inProgress] using hne

theorem pollStep_stop (id : Option String)
    (response : Except GoError (List (Option ImportSnapshotTask))) (r : Result)
    (h : pollStep id response = some (.stop r)) : r ≠ .returned none := by
  unfold pollStep at h
  split at h
  · simp at h; subst h; simp
  · simp at h; subst h; simp
  · simp at h; subst h; simp
  · simp at h; subst h; simp
  · split at h
    · simp at h; subst h; simp
    · split_ifs at h
      · split at h
        · simp at h; subst h; simp
        · simp at h
      · simp at h

theorem pollStep_completed (id : Option String)
    (response : Except GoError (List (Option ImportSnapshotTask))) (sid : Option String)
    (h : pollStep id response = some (.completed sid)) :
    ∃ task detail rest, response = .ok (some task :: rest) ∧
      task.SnapshotTaskDetail = some detail ∧ detail.Status = some "completed" ∧
      detail.SnapshotId = sid := by
  unfold pollStep at h
  split at h
  · simp at h
  · simp at h
  · simp at h
  · simp at h
  · rename_i detail rest
    split at h
    · simp at h
    · rename_i status hst
      split_ifs at h with hne
      · split at h <;> simp at h
      · have hs : status = "completed" := by simpa using hne
        simp at h
        exact ⟨⟨some detail⟩, detail, rest, rfl, rfl, by rw [hst, hs], h⟩

theorem pollLoop_step (env : Env) (id : String) (fuel tick : Nat)
    (h : inProgress (env.DescribeImportSnapshotTasks tick) = true) :
    pollLoop env (some id) (fuel + 1) tick =
      (.DescribeImportSnapshotTasks (some id) :: .Sleep 60 ::
          (pollLoop env (some id) fuel (tick + 1)).1,
        (pollLoop env (some id) fuel (tick + 1)).2) := by
  simp [pollLoop, pollStep_inProgress id _ h]

theorem pollLoop_last (env : Env) (id : Option String) (fuel tick : Nat) (out : PollOut)
    (h : pollStep id (env.DescribeImportSnapshotTasks tick) = some out) :
    pollLoop env id (fuel + 1) tick = ([.DescribeImportSnapshotTasks id], out) := by
  simp [pollLoop, h]

theorem pollLoop_waiting (env : Env) (id : String) :
    ∀ (k fuel tick : Nat),
      (∀ t, t < k → inProgress (env.DescribeImportSnapshotTasks (tick + t)) = true) →
      pollLoop env (some id) (k + fuel) tick =
        (waitCalls (some id) k ++ (pollLoop env (some id) fuel (tick + k)).1,
          (pollLoop env (some id) fuel (tick + k)).2) := by
  intro k
  induction k with
  | zero => intro fuel tick _; simp [waitCalls]
  | succ k ih =>
    intro fuel tick h
    have h0 := h 0 (by omega)
    rw [Nat.add_zero] at h0
    have hrec := ih fuel (tick + 1) (fun t ht => by
      have := h (t + 1) (by omega)
      rwa [show tick + (t + 1) = tick + 1 + t by omega] at this)
    rw [show k + 1 + fuel = (k + fuel) + 1 by omega, pollLoop_step env id _ tick h0, hrec]
    simp [waitCalls, show tick + 1 + k = tick + (k + 1) by omega]

theorem pollLoop_all_active (env : Env) (id : String)
    (h : ∀ t, inProgress (env.DescribeImportSnapshotTasks t) = true) (fuel tick : Nat) :
    pollLoop env (some id) fuel tick = (waitCalls (some id) fuel, .stop .polling) := by
  have := pollLoop_waiting env id fuel 0 tick (fun t _ => h _)
  simpa [pollLoop] using this

theorem pollLoop_calls (env : Env) (id : Option String) :
    ∀ (fuel tick : Nat), ∀ c ∈ (pollLoop env id fuel tick).1,
      c = .DescribeImportSnapshotTasks id ∨ c = .Sleep 60 := by
  intro fuel
  induction fuel with
  | zero => intro tick c hc; simp [pollLoop] at hc
  | succ fuel ih =>
    intro tick c hc
    cases hs : pollStep id (env.DescribeImportSnapshotTasks tick) with
    | some out => simp [pollLoop, hs] at hc; exact Or.inl hc
    | none =>
      simp [pollLoop, hs] at hc
      rcases hc with h | h | h
      · exact Or.inl h
      · exact Or.inr h
      · exact ih _ c h

theorem pollLoop_stop (env : Env) (id : Option String) :
    ∀ (fuel tick : Nat) (r : Result),
      (pollLoop env id fuel tick).2 = .stop r → r ≠ .returned none := by
  intro fuel
  induction fuel with
  | zero => intro tick r h; simp [pollLoop] at h; subst h; simp
  | succ fuel ih =>
    intro tick r h
    cases hs : pollStep id (env.DescribeImportSnapshotTasks tick) with
    | some out =>
      simp [pollLoop, hs] at h
      subst h
      exact pollStep_stop _ _ _ hs
    | none =>
      simp [pollLoop, hs] at h
      exact ih _ r h

theorem pollLoop_completed (env : Env) (id : Option String) :
    ∀ (fuel tick : Nat) (sid : Option String),
      (pollLoop env id fuel tick).2 = .completed sid →
      ∃ t task detail rest, tick ≤ t ∧
        env.DescribeImportSnapshotTasks t = .ok (some task :: rest) ∧
        task.SnapshotTaskDetail = some detail ∧ detail.Status = some "completed" ∧
        detail.SnapshotId = sid ∧
        (∀ t2, tick ≤ t2 → t2 < t → inProgress (env.DescribeImportSnapshotTasks t2) = true) ∧
        ((pollLoop env id fuel tick).1.filter Call.isDescribe).length = t + 1 - tick := by
  intro fuel
  induction fuel with
  | zero => intro tick sid h; simp [pollLoop] at h
  | succ fuel ih =>
    intro tick sid h
    cases hs : pollStep id (env.DescribeImportSnapshotTasks tick) with
    | some out =>
      simp [pollLoop, hs] at h
      subst h
      obtain ⟨task, detail, rest, h1, h2, h3, h4⟩ := pollStep_completed _ _ _ hs
      refine ⟨tick, task, detail, rest, le_refl _, h1, h2, h3, h4, ?_, ?_⟩
      · intro t2 h5 h6; omega
      · simp [pollLoop, hs, Call.isDescribe]
    | none =>
      simp [pollLoop, hs] at h
      obtain ⟨t, task, detail, rest, ht, h1, h2, h3, h4, h5, h6⟩ := ih (tick + 1) sid h
      refine ⟨t, task, detail, rest, by omega, h1, h2, h3, h4, ?_, ?_⟩
      · intro t2 h7 h8
        rcases Nat.eq_or_lt_of_le h7 with heq | hlt
        · subst heq; exact pollStep_eq_none _ _ hs
        · exact h5 t2 hlt h8
      · simp [pollLoop, hs, Call.isDescribe, h6]
        omega

/-! ## The multipart branch as a whole -/

theorem RunE_of_preamble (p : Params) (env : Env) (fuel : Nat) (name dst : String) (n : Int)
    (hpre : preamble p env = .ok (name, dst, n)) :
    RunE p env fuel =
      match uploadPhase p env dst n with
      | (calls, some r) => ⟨calls, r⟩
      | (calls, none) =>
        ⟨calls ++ (importAndRegister p env name dst none fuel).trace,
          (importAndRegister p env name dst none fuel).result⟩ := by
  simp [RunE, hpre]

theorem multipartUpload_loop (p : Params) (env : Env) (dst u : String) (n : Int)
    (hmax : 0 ≤ n ∧ n < 2 ^ 63)
    (hcreate : env.CreateMultipartUpload = .ok (some (some u))) (hu : u ≠ "") :
    multipartUpload p env dst n =
      match uploadLoop env p.bucket dst u n (numUploads n).toNat 0
          (List.replicate (numUploads n).toNat none) with
      | (calls, .error r) =>
        (.CreateMultipartUploadWithContext p.timeout p.bucket dst :: calls, some r)
      | (calls, .ok parts) =>
        match env.CompleteMultipartUpload with
        | some err =>
          (.CreateMultipartUploadWithContext p.timeout p.bucket dst :: calls ++
              [.CompleteMultipartUpload p.bucket dst u parts],
            some (.returned (some (.wrapf ("Error completing upload: " ++ err.Error) err))))
        | none =>
          (.CreateMultipartUploadWithContext p.timeout p.bucket dst :: calls ++
              [.CompleteMultipartUpload p.bucket dst u parts], none) := by
  have hN := (numUploads_in_range n hmax.1 hmax.2).2.1
  simp [multipartUpload, hcreate, uploadIdOf, hu, not_lt.mpr hN]

theorem filter_isUploadPart_partCalls (bucket dst u : String) (n : Int) (l : List Nat) :
    ((l.flatMap (partCalls bucket dst u n)).filter Call.isUploadPart).length = l.length := by
  induction l with
  | nil => rfl
  | cons i l ih =>
    simp only [List.flatMap_cons, List.filter_append, List.length_append, ih]
    simp [partCalls, Call.isUploadPart, List.filter]
    omega

theorem partCalls_not_afterUpload (bucket dst u : String) (n : Int) (l : List Nat) :
    ∀ c ∈ l.flatMap (partCalls bucket dst u n), c.isAfterUpload = false := by
  intro c hc
  simp only [List.mem_flatMap, partCalls] at hc
  obtain ⟨i, _, hi⟩ := hc
  simp at hi
  rcases hi with h | h <;> subst h <;> rfl

/-- C5: in a multipart run in which the uploads of parts `0..k-1` succeed and the
upload of part `k` fails with `e`, `RunE` returns the error
`Error uploading part k : e`, which wraps `e`; the calls made are the creation
of the upload, the reads and uploads of parts `0..k`, and the abort request
built after the failure: `k + 1` part uploads in all and no completion, import,
status query or registration. -/
theorem upload_failure_names_part (p : Params) (env : Env) (fuel : Nat) (name dst u : String)
    (n : Int) (k : Nat) (e : GoError)
    (hpre : preamble p env = .ok (name, dst, n))
    (hbig : minSizeForMultipartUpload < n) (hmax : n < 2 ^ 63)
    (hcreate : env.CreateMultipartUpload = .ok (some (some u))) (hu : u ≠ "")
    (hk : (k : Int) < numUploads n)
    (hprev : ∀ i : Nat, i < k → env.ReadAt (partLength n i) (partStart i) = none ∧
      ∃ etag, env.UploadPart ((i : Int) + 1) = .ok etag)
    (hread : env.ReadAt (partLength n k) (partStart k) = none)
    (hfail : env.UploadPart ((k : Int) + 1) = .error e) :
    (RunE p env fuel).result = .returned (some
        (.wrapf ("Error uploading part " ++ toString k ++ " : " ++ e.Error) e)) ∧
      (GoError.wrapf ("Error uploading part " ++ toString k ++ " : " ++ e.Error) e).Unwrap
        = some e ∧
      (RunE p env fuel).trace =
        .CreateMultipartUploadWithContext p.timeout p.bucket dst ::
          ((List.range k).flatMap (partCalls p.bucket dst u n) ++
            (partCalls p.bucket dst u n k ++ [.AbortMultipartUploadRequest u])) ∧
      ((RunE p env fuel).trace.filter Call.isUploadPart).length = k + 1 ∧
      ∀ c ∈ (RunE p env fuel).trace, c.isAfterUpload = false := by
  have h0 : 0 ≤ n := by simp only [minSizeForMultipartUpload] at hbig; omega
  obtain ⟨_, hN0, hN33⟩ := numUploads_in_range n h0 hmax
  have hw : ∀ i : Nat, (i : Int) < numUploads n → wrapInt64 ((i : Int) + 1) = i + 1 :=
    fun i hi => wrapInt64_succ i (by omega)
  have hloop := uploadLoop_upload_fails env p.bucket dst u n e k
    (by have := (part_bounds n k h0 hmax hk).2.1; omega) hread
    (by rw [hw k hk]; exact hfail)
    (numUploads n).toNat 0 (List.replicate (numUploads n).toNat none) (Nat.zero_le _)
    (by omega)
    (fun i _ hik => by
      have hi : (i : Int) < numUploads n := by omega
      obtain ⟨hr, etag, he⟩ := hprev i hik
      refine ⟨by have := (part_bounds n i h0 hmax hi).2.1; omega, hr, etag, ?_⟩
      rw [hw i hi]; exact he)
  have hrun : RunE p env fuel =
      ⟨.CreateMultipartUploadWithContext p.timeout p.bucket dst ::
          ((List.range k).flatMap (partCalls p.bucket dst u n) ++
            (partCalls p.bucket dst u n k ++ [.AbortMultipartUploadRequest u])),
        .returned (some
          (.wrapf ("Error uploading part " ++ toString k ++ " : " ++ e.Error) e))⟩ := by
    rw [RunE_of_preamble p env fuel name dst n hpre]
    simp only [uploadPhase, if_neg (not_le.mpr hbig)]
    rw [multipartUpload_loop p env dst u n ⟨h0, hmax⟩ hcreate hu, hloop]
    simp [List.range_eq_range']
  rw [hrun]
  refine ⟨rfl, rfl, rfl, ?_, ?_⟩
  · simp only [List.filter_cons, List.filter_append, List.length_append, Call.isUploadPart,
      filter_isUploadPart_partCalls]
    simp [partCalls, Call.isUploadPart, List.filter, filter_isUploadPart_partCalls]
  · intro c hc
    simp only [List.mem_cons, List.mem_append] at hc
    rcases hc with h | h | h | h
    · subst h; rfl
    · exact partCalls_not_afterUpload _ _ _ _ _ c h
    · simp [partCalls] at h
      rcases h with h | h <;> subst h <;> rfl
    · simp at h; subst h; rfl

theorem upload_failure_names_part_witness :
    (RunE exampleParams envPartThreeFails 1).result = .returned (some
        (.wrapf ("Error uploading part " ++ toString 3 ++ " : " ++
          (GoError.lib "connection reset").Error) (.lib "connection reset"))) ∧
      ((RunE exampleParams envPartThreeFails 1).trace.filter Call.isUploadPart).length = 3 + 1 :=
  have h := upload_failure_names_part exampleParams envPartThreeFails 1 "img" "img.raw"
    "upload-1" (5 * 2 ^ 30) 3 (.lib "connection reset") rfl (by decide) (by decide)
    rfl (by decide) (by decide)
    (fun i hi => by
      have hcases : i = 0 ∨ i = 1 ∨ i = 2 := by omega
      rcases hcases with h | h | h <;> subst h <;> exact ⟨rfl, _, rfl⟩)
    rfl rfl
  ⟨h.1, h.2.2.2.1⟩

theorem register_calls (p : Params) (env : Env) (name : String)
    (snapshotID sriovNetFlag : Option String) :
    ∀ c ∈ (register p env name snapshotID sriovNetFlag).trace,
      c = .RegisterImage (regParams p name snapshotID sriovNetFlag) ∧ snapshotID ≠ none := by
  intro c hc
  unfold register at hc
  split at hc
  · simp at hc
  · split at hc <;> simp at hc <;> exact ⟨hc, by simp⟩

theorem importAndRegister_calls (p : Params) (env : Env) (name dst : String)
    (flag : Option String) (fuel : Nat) :
    ∀ c ∈ (importAndRegister p env name dst flag fuel).trace,
      c.isComplete = false ∧ c.isUploadPart = false ∧ c.isAbort = false := by
  intro c hc
  unfold importAndRegister at hc
  split at hc
  · simp at hc; subst hc; exact ⟨rfl, rfl, rfl⟩
  · rename_i id _
    split at hc
    · rename_i calls r hp
      simp at hc
      rcases hc with h | h
      · subst h; exact ⟨rfl, rfl, rfl⟩
      · have := pollLoop_calls env id fuel 0 c (by rw [hp]; exact h)
        rcases this with h2 | h2 <;> subst h2 <;> exact ⟨rfl, rfl, rfl⟩
    · rename_i calls sid hp
      simp at hc
      rcases hc with h | h | h
      · subst h; exact ⟨rfl, rfl, rfl⟩
      · have := pollLoop_calls env id fuel 0 c (by rw [hp]; exact h)
        rcases this with h2 | h2 <;> subst h2 <;> exact ⟨rfl, rfl, rfl⟩
      · have := (register_calls p env name sid flag c h).1
        subst this; exact ⟨rfl, rfl, rfl⟩

theorem filter_eq_nil_of_forall {α : Type} (f : α → Bool) (l : List α)
    (h : ∀ c ∈ l, f c = false) : l.filter f = [] := by
  induction l with
  | nil => rfl
  | cons a l ih =>
    have ha := h a (List.mem_cons_self _ _)
    simp [List.filter, ha, ih (fun c hc => h c (List.mem_cons_of_mem _ hc))]

theorem partCalls_not_complete (bucket dst u : String) (n : Int) (l : List Nat) :
    (l.flatMap (partCalls bucket dst u n)).filter Call.isComplete = [] := by
  apply filter_eq_nil_of_forall
  intro c hc
  have := partCalls_not_afterUpload bucket dst u n l c hc
  cases c <;> simp [Call.isAfterUpload] at this <;> rfl

/-- In a multipart run in which every part is read and uploaded with success,
the upload phase makes the calls of the plan, in order: the creation of the
upload, for each part index `i < numUploads` the read of `partLength` bytes at
`partStart` and the upload of these bytes as part number `i + 1`, and the
completion. -/
theorem uploadPhase_all_ok (p : Params) (env : Env) (dst u : String) (n : Int)
    (etag : Nat → Option String)
    (hbig : minSizeForMultipartUpload < n) (hmax : n < 2 ^ 63)
    (hcreate : env.CreateMultipartUpload = .ok (some (some u))) (hu : u ≠ "")
    (hcomplete : env.CompleteMultipartUpload = none)
    (hall : ∀ i : Nat, (i : Int) < numUploads n →
      env.ReadAt (partLength n i) (partStart i) = none ∧
        env.UploadPart ((i : Int) + 1) = .ok (etag i)) :
    uploadPhase p env dst n =
      (.CreateMultipartUploadWithContext p.timeout p.bucket dst ::
          (List.range (numUploads n).toNat).flatMap (partCalls p.bucket dst u n) ++
          [.CompleteMultipartUpload p.bucket dst u (completedParts etag (numUploads n).toNat)],
        none) := by
  have h0 : 0 ≤ n := by simp only [minSizeForMultipartUpload] at hbig; omega
  obtain ⟨_, hN0, hN33⟩ := numUploads_in_range n h0 hmax
  have hw : ∀ i : Nat, (i : Int) < numUploads n → wrapInt64 ((i : Int) + 1) = i + 1 :=
    fun i hi => wrapInt64_succ i (by omega)
  have hloop := uploadLoop_all_ok env p.bucket dst u n etag (numUploads n).toNat 0 [] rfl
    (fun i _ hik => by
      have hi : (i : Int) < numUploads n := by omega
      obtain ⟨hr, he⟩ := hall i hi
      refine ⟨by have := (part_bounds n i h0 hmax hi).2.1; omega, hr, ?_⟩
      rw [hw i hi]; exact he)
  have hparts : ((List.range' 0 (numUploads n).toNat).map fun i : Nat =>
      some (⟨etag i, wrapInt64 ((i : Int) + 1)⟩ : CompletedPart)) =
      completedParts etag (numUploads n).toNat := by
    rw [completedParts, List.range_eq_range']
    apply List.map_congr_left
    intro i hi
    rw [List.mem_range'_1] at hi
    rw [hw i (by omega)]
  rw [List.nil_append, List.nil_append, hparts] at hloop
  simp only [uploadPhase, if_neg (not_le.mpr hbig)]
  rw [multipartUpload_loop p env dst u n ⟨h0, hmax⟩ hcreate hu, hloop]
  simp [hcomplete, List.range_eq_range']

/-- A file of at most 4 GiB, 4 GiB included, is uploaded by exactly one
`PutObject` of content length `fileSize`. -/
theorem uploadPhase_simple (p : Params) (env : Env) (dst : String) (n : Int)
    (hsmall : n ≤ minSizeForMultipartUpload) :
    (uploadPhase p env dst n).1 =
      [.PutObjectWithContext p.timeout p.bucket dst n "application/octet-stream"] := by
  simp only [uploadPhase, if_pos hsmall, simpleUpload]
  split <;> rfl

/-- C3: in a multipart run in which every part is read and uploaded with
success (the upload of part index `i` returning the tag `etag i`), exactly one
`CompleteMultipartUpload` is issued and its part list has `numUploads`
entries, entry `i` being the non-nil pair of part number `i + 1` and `etag i`;
the part numbers are `1, 2, ..., numUploads` in this order, strictly ascending,
and no entry is nil. -/
theorem completed_parts_in_order (p : Params) (env : Env) (fuel : Nat) (name dst u : String)
    (n : Int) (etag : Nat → Option String)
    (hpre : preamble p env = .ok (name, dst, n))
    (hbig : minSizeForMultipartUpload < n) (hmax : n < 2 ^ 63)
    (hcreate : env.CreateMultipartUpload = .ok (some (some u))) (hu : u ≠ "")
    (hall : ∀ i : Nat, (i : Int) < numUploads n →
      env.ReadAt (partLength n i) (partStart i) = none ∧
        env.UploadPart ((i : Int) + 1) = .ok (etag i)) :
    (RunE p env fuel).trace.filter Call.isComplete =
        [.CompleteMultipartUpload p.bucket dst u (completedParts etag (numUploads n).toNat)] ∧
      (completedParts etag (numUploads n).toNat).length = (numUploads n).toNat ∧
      (∀ i : Nat, i < (numUploads n).toNat →
        (completedParts etag (numUploads n).toNat)[i]? = some (some ⟨etag i, (i : Int) + 1⟩)) ∧
      (completedParts etag (numUploads n).toNat).map (Option.map CompletedPart.PartNumber) =
        (List.range (numUploads n).toNat).map (fun i : Nat => some ((i : Int) + 1)) ∧
      ((completedParts etag (numUploads n).toNat).filterMap
        (Option.map CompletedPart.PartNumber)).Pairwise (· < ·) ∧
      none ∉ completedParts etag (numUploads n).toNat := by
  have h0 : 0 ≤ n := by simp only [minSizeForMultipartUpload] at hbig; omega
  obtain ⟨_, hN0, hN33⟩ := numUploads_in_range n h0 hmax
  have hw : ∀ i : Nat, (i : Int) < numUploads n → wrapInt64 ((i : Int) + 1) = i + 1 :=
    fun i hi => wrapInt64_succ i (by omega)
  have hloop := uploadLoop_all_ok env p.bucket dst u n etag (numUploads n).toNat 0 [] rfl
    (fun i _ hik => by
      have hi : (i : Int) < numUploads n := by omega
      obtain ⟨hr, he⟩ := hall i hi
      refine ⟨by have := (part_bounds n i h0 hmax hi).2.1; omega, hr, ?_⟩
      rw [hw i hi]; exact he)
  have hparts : ((List.range' 0 (numUploads n).toNat).map fun i : Nat =>
      some (⟨etag i, wrapInt64 ((i : Int) + 1)⟩ : CompletedPart)) =
      completedParts etag (numUploads n).toNat := by
    rw [completedParts, List.range_eq_range']
    apply List.map_congr_left
    intro i hi
    rw [List.mem_range'_1] at hi
    rw [hw i (by omega)]
  rw [List.nil_append, List.nil_append, hparts] at hloop
  refine ⟨?_, by simp [completedParts], ?_, by simp [completedParts], ?_, by simp [completedParts]⟩
  · rw [RunE_of_preamble p env fuel name dst n hpre]
    simp only [uploadPhase, if_neg (not_le.mpr hbig)]
    rw [multipartUpload_loop p env dst u n ⟨h0, hmax⟩ hcreate hu, hloop]
    cases env.CompleteMultipartUpload with
    | some err =>
      simp [List.filter_cons, List.filter_append, Call.isComplete, partCalls_not_complete]
    | none =>
      have himp := filter_eq_nil_of_forall Call.isComplete _
        (fun c hc => (importAndRegister_calls p env name dst none fuel c hc).1)
      simp [List.filter_cons, List.filter_append, Call.isComplete, partCalls_not_complete, himp]
  · intro i hi
    simp [completedParts, hi]
  · have : (completedParts etag (numUploads n).toNat).filterMap
        (Option.map CompletedPart.PartNumber) =
        (List.range (numUploads n).toNat).map (fun i : Nat => (i : Int) + 1) := by
      simp only [completedParts, List.filterMap_map, Function.comp_def, Option.map_some']
      exact congrFun (List.filterMap_eq_map (fun i : Nat => (i : Int) + 1)) _
    rw [this, List.pairwise_map]
    exact (List.pairwise_lt_range _).imp (fun h => by omega)

theorem completed_parts_in_order_witness :
    (RunE exampleParams exampleEnv 1).trace.filter Call.isComplete =
      [.CompleteMultipartUpload exampleParams.bucket "img.raw" "upload-1"
        (completedParts (fun i => some ("etag-" ++ toString ((i : Int) + 1)))
          (numUploads (5 * 2 ^ 30)).toNat)] :=
  (completed_parts_in_order exampleParams exampleEnv 1 "img" "img.raw" "upload-1" (5 * 2 ^ 30)
    (fun i => some ("etag-" ++ toString ((i : Int) + 1))) rfl (by decide) (by decide) rfl
    (by decide) (fun _ _ => ⟨rfl, rfl⟩)).1

/-! ## Registration -/

theorem preamble_error (p : Params) (env : Env) (r : Result)
    (h : preamble p env = .error r) : r ≠ .returned none := by
  unfold preamble at h
  repeat' split at h
  all_goals first | (simp at h; subst h; simp) | simp at h

theorem multipartUpload_shape (p : Params) (env : Env) (dst : String) (n : Int) :
    ∃ loopCalls tail r,
      multipartUpload p env dst n =
          (.CreateMultipartUploadWithContext p.timeout p.bucket dst :: loopCalls ++ tail, r) ∧
        (∀ c ∈ loopCalls, c.isAfterUpload = false ∧ c.isSleep = false) ∧
        (tail = [] ∨ ∃ u parts, tail = [.CompleteMultipartUpload p.bucket dst u parts]) ∧
        r ≠ some (.returned none) := by
  cases hc : env.CreateMultipartUpload with
  | error e =>
    exact ⟨[], [], some (.returned (some e)), by simp [multipartUpload, hc], by simp,
      Or.inl rfl, by simp⟩
  | ok out =>
    by_cases hu : uploadIdOf out = ""
    · exact ⟨[], [], some (.returned (some
        (.errorf "No upload id found in start upload request: <nil>"))),
        by simp [multipartUpload, hc, hu], by simp, Or.inl rfl, by simp⟩
    · by_cases hn : numUploads n < 0
      · exact ⟨[], [], some .panicked, by simp [multipartUpload, hc, hu, hn], by simp,
          Or.inl rfl, by simp⟩
      · have hcalls : ∀ c ∈ (uploadLoop env p.bucket dst (uploadIdOf out) n (numUploads n).toNat 0
            (List.replicate (numUploads n).toNat none)).1,
            c.isAfterUpload = false ∧ c.isSleep = false :=
          fun c hc => ⟨uploadLoop_calls env p.bucket dst (uploadIdOf out) n _ _ _ c hc,
            uploadLoop_no_sleep env p.bucket dst (uploadIdOf out) n _ _ _ c hc⟩
        have herr := uploadLoop_error env p.bucket dst (uploadIdOf out) n (numUploads n).toNat 0
          (List.replicate (numUploads n).toNat none)
        rcases hl : uploadLoop env p.bucket dst (uploadIdOf out) n (numUploads n).toNat 0
          (List.replicate (numUploads n).toNat none) with ⟨calls, res⟩
        rw [hl] at hcalls herr
        cases res with
        | error r =>
          refine ⟨calls, [], some r, by simp [multipartUpload, hc, hu, hn, hl], hcalls,
            Or.inl rfl, ?_⟩
          have := herr r rfl
          simpa using this
        | ok parts =>
          cases hcomp : env.CompleteMultipartUpload with
          | some err =>
            exact ⟨calls, [.CompleteMultipartUpload p.bucket dst (uploadIdOf out) parts],
              some (.returned (some (.wrapf ("Error completing upload: " ++ err.Error) err))),
              by simp [multipartUpload, hc, hu, hn, hl, hcomp], hcalls,
              Or.inr ⟨_, _, rfl⟩, by simp⟩
          | none =>
            exact ⟨calls, [.CompleteMultipartUpload p.bucket dst (uploadIdOf out) parts], none,
              by simp [multipartUpload, hc, hu, hn, hl, hcomp], hcalls,
              Or.inr ⟨_, _, rfl⟩, by simp⟩

theorem uploadPhase_calls (p : Params) (env : Env) (dst : String) (n : Int) :
    ∀ c ∈ (uploadPhase p env dst n).1, c.isRegisterImage = false ∧ c.isDescribe = false := by
  intro c hc
  unfold uploadPhase at hc
  split_ifs at hc
  · unfold simpleUpload at hc
    split at hc <;> simp at hc <;> subst hc <;> exact ⟨rfl, rfl⟩
  · obtain ⟨loopCalls, tail, r, heq, hloop, htail, _⟩ := multipartUpload_shape p env dst n
    rw [heq] at hc
    simp at hc
    rcases hc with h | h | h
    · subst h; exact ⟨rfl, rfl⟩
    · have := (hloop c h).1
      cases c <;> simp [Call.isAfterUpload] at this <;> exact ⟨rfl, rfl⟩
    · rcases htail with ht | ⟨u, parts, ht⟩
      · subst ht; simp at h
      · subst ht; simp at h; subst h; exact ⟨rfl, rfl⟩

theorem uploadPhase_result (p : Params) (env : Env) (dst : String) (n : Int) (r : Result)
    (h : (uploadPhase p env dst n).2 = some r) : r ≠ .returned none := by
  unfold uploadPhase at h
  split_ifs at h
  · unfold simpleUpload at h
    split at h <;> simp at h
    subst h; simp
  · obtain ⟨loopCalls, tail, r2, heq, _, _, hr⟩ := multipartUpload_shape p env dst n
    rw [heq] at h
    simp at h
    subst h
    simpa using hr

theorem regParams_mapping (p : Params) (name : String) (sid flag : Option String) :
    (regParams p name sid flag).BlockDeviceMappings =
      [⟨some "/dev/sda1", some ⟨some true, sid, some "standard"⟩⟩] := by
  unfold regParams
  split_ifs <;> rfl

theorem register_trace (p : Params) (env : Env) (name : String) (S : String)
    (flag : Option String) :
    (register p env name (some S) flag).trace = [.RegisterImage (regParams p name (some S) flag)] := by
  unfold register
  simp only
  split <;> rfl

theorem register_none (p : Params) (env : Env) (name : String) (flag : Option String) :
    register p env name none flag =
      ⟨[], .returned (some (.errorf "SnapshotID unavailable after import completed"))⟩ := rfl

theorem register_success (p : Params) (env : Env) (name : String)
    (sid flag : Option String)
    (h : (register p env name sid flag).result = .returned none) : sid ≠ none := by
  intro hs
  subst hs
  simp [register] at h

theorem waitCalls_mem (id : Option String) :
    ∀ (k : Nat), ∀ c ∈ waitCalls id k, c = .DescribeImportSnapshotTasks id ∨ c = .Sleep 60 := by
  intro k
  induction k with
  | zero => intro c hc; simp [waitCalls] at hc
  | succ k ih =>
    intro c hc
    simp [waitCalls] at hc
    rcases hc with h | h | h
    · exact Or.inl h
    · exact Or.inr h
    · exact ih c h

theorem pollLoop_reach (env : Env) (id : Option String) (k fuel : Nat) (out : PollOut)
    (hid : 0 < k → ∃ s, id = some s)
    (hprev : ∀ t, t < k → inProgress (env.DescribeImportSnapshotTasks t) = true)
    (hk : pollStep id (env.DescribeImportSnapshotTasks k) = some out) (hf : k < fuel) :
    pollLoop env id fuel 0 = (waitCalls id k ++ [.DescribeImportSnapshotTasks id], out) := by
  obtain ⟨f, rfl⟩ : ∃ f, fuel = k + (f + 1) := ⟨fuel - k - 1, by omega⟩
  rcases Nat.eq_zero_or_pos k with h0 | hpos
  · subst h0
    rw [Nat.zero_add, pollLoop_last env id f 0 out hk]
    simp [waitCalls]
  · obtain ⟨s, rfl⟩ := hid hpos
    rw [pollLoop_waiting env s k (f + 1) 0 (fun t ht => by rw [Nat.zero_add]; exact hprev t ht)]
    rw [Nat.zero_add, pollLoop_last env (some s) f k out hk]

theorem snapshot_error_distinct (s : String) :
    "SnapshotID unavailable after import completed" ≠
      "Error getting import snapshot status: " ++ s := by
  intro h
  have := congrArg String.data h
  simp [String.data_append] at this

theorem registerImage_origin (p : Params) (env : Env) (fuel : Nat) (input : RegisterImageInput)
    (hin : Call.RegisterImage input ∈ (RunE p env fuel).trace) :
    ∃ (name dst : String) (n : Int) (t : Nat) (task : ImportSnapshotTask)
      (detail : SnapshotTaskDetail) (rest : List (Option ImportSnapshotTask)) (S : String)
      (pre : List Call),
      preamble p env = .ok (name, dst, n) ∧
        env.DescribeImportSnapshotTasks t = .ok (some task :: rest) ∧
        task.SnapshotTaskDetail = some detail ∧ detail.Status = some "completed" ∧
        detail.SnapshotId = some S ∧
        input = regParams p name (some S) none ∧
        (RunE p env fuel).trace = pre ++ [.RegisterImage input] ∧
        (pre.filter Call.isDescribe).length = t + 1 ∧
        ∀ c ∈ pre, c.isRegisterImage = false := by
  cases hpre : preamble p env with
  | error r => simp [RunE, hpre] at hin
  | ok v =>
    obtain ⟨name, dst, n⟩ := v
    have hup := uploadPhase_calls p env dst n
    have hrun := RunE_of_preamble p env fuel name dst n hpre
    rcases hph : uploadPhase p env dst n with ⟨calls, r⟩
    rw [hph] at hup hrun
    rw [hrun] at hin ⊢
    cases r with
    | some r =>
      simp only at hin
      have := (hup _ hin).1
      simp [Call.isRegisterImage] at this
    | none =>
      simp only at hin ⊢
      rw [List.mem_append] at hin
      rcases hin with hin | hin
      · have := (hup _ hin).1
        simp [Call.isRegisterImage] at this
      · cases himp : env.ImportSnapshot with
        | error e => simp [importAndRegister, himp] at hin
        | ok id =>
          have hpc := pollLoop_calls env id fuel 0
          have hcomp := pollLoop_completed env id fuel 0
          rcases hpl : pollLoop env id fuel 0 with ⟨pc, out⟩
          rw [hpl] at hpc hcomp
          cases out with
          | stop r =>
            simp [importAndRegister, himp, hpl] at hin
            rcases hpc _ hin with h | h <;> simp at h
          | completed sid =>
            obtain ⟨t, task, detail, rest, _, h1, h2, h3, h4, _, h6⟩ := hcomp sid rfl
            cases sid with
            | none =>
              simp [importAndRegister, himp, hpl, register_none] at hin
              rcases hpc _ hin with h | h <;> simp at h
            | some S =>
              have htr := register_trace p env name S none
              simp only [importAndRegister, himp, hpl, htr] at hin ⊢
              have hinput : input = regParams p name (some S) none := by
                simp only [List.mem_cons, List.mem_append, List.mem_singleton] at hin
                rcases hin with h | h
                · rcases h with h | h
                  · simp at h
                  · rcases hpc _ h with h' | h' <;> simp at h'
                · simpa using h
              subst hinput
              refine ⟨name, dst, n, t, task, detail, rest, S,
                calls ++ Call.ImportSnapshot ("LinuxKit: " ++ name)
                  ("LinuxKit: " ++ name ++ " disk") "raw" p.bucket dst :: pc,
                rfl, h1, h2, h3, h4, rfl, by simp, ?_, ?_⟩
              · have hcf : calls.filter Call.isDescribe = [] :=
                  filter_eq_nil_of_forall _ _ (fun c hc => (hup c hc).2)
                simp only [List.filter_append, hcf, List.nil_append, List.filter_cons,
                  Call.isDescribe]
                simpa using h6
              · intro c hc
                simp only [List.mem_append, List.mem_cons] at hc
                rcases hc with h | h | h
                · exact (hup c h).1
                · subst h; rfl
                · rcases hpc c h with h' | h' <;> subst h' <;> rfl

/-- C7: `RunE` never issues `RegisterImage` and never returns success without a
snapshot id.  (1) Every `RegisterImage` in the trace is its last call; it
follows a status response (number `t`, after `t + 1` status queries) whose
first task has status `"completed"` and snapshot id `S`, and its only
block-device mapping is `/dev/sda1` on `S`.  (2) A run that returns `nil` has
issued `RegisterImage`.  (3) When the workflow reaches the polling loop and
status query number `k` is the first that does not report progress: a
completed task without snapshot id gives the error
`SnapshotID unavailable after import completed`, an empty task list gives
`Unable to get import snapshot task status`, a failed query gives
`Error getting import snapshot status: ...`, each time without any
`RegisterImage`; the first message differs from the two others. -/
theorem register_needs_snapshot (p : Params) (env : Env) (fuel : Nat) :
    (∀ input, Call.RegisterImage input ∈ (RunE p env fuel).trace →
      ∃ (t : Nat) (task : ImportSnapshotTask) (detail : SnapshotTaskDetail)
        (rest : List (Option ImportSnapshotTask)) (S : String) (pre : List Call),
        env.DescribeImportSnapshotTasks t = .ok (some task :: rest) ∧
          task.SnapshotTaskDetail = some detail ∧ detail.Status = some "completed" ∧
          detail.SnapshotId = some S ∧
          input.BlockDeviceMappings =
            [⟨some "/dev/sda1", some ⟨some true, some S, some "standard"⟩⟩] ∧
          (RunE p env fuel).trace = pre ++ [.RegisterImage input] ∧
          (pre.filter Call.isDescribe).length = t + 1 ∧
          ∀ c ∈ pre, c.isRegisterImage = false) ∧
      ((RunE p env fuel).result = .returned none →
        ∃ input, Call.RegisterImage input ∈ (RunE p env fuel).trace) ∧
      (∀ (name dst : String) (n : Int) (id : Option String) (k : Nat),
        preamble p env = .ok (name, dst, n) → (uploadPhase p env dst n).2 = none →
        env.ImportSnapshot = .ok id → (0 < k → ∃ s, id = some s) →
        (∀ t, t < k → inProgress (env.DescribeImportSnapshotTasks t) = true) → k < fuel →
        ((∃ task detail rest, env.DescribeImportSnapshotTasks k = .ok (some task :: rest) ∧
            task.SnapshotTaskDetail = some detail ∧ detail.Status = some "completed" ∧
            detail.SnapshotId = none) →
          (RunE p env fuel).result = .returned (some
              (.errorf "SnapshotID unavailable after import completed")) ∧
            ∀ c ∈ (RunE p env fuel).trace, c.isRegisterImage = false) ∧
        (env.DescribeImportSnapshotTasks k = .ok [] →
          (RunE p env fuel).result = .returned (some
              (.errorf "Unable to get import snapshot task status")) ∧
            ∀ c ∈ (RunE p env fuel).trace, c.isRegisterImage = false) ∧
        (∀ e, env.DescribeImportSnapshotTasks k = .error e →
          (RunE p env fuel).result = .returned (some
              (.errorf ("Error getting import snapshot status: " ++ e.Error))) ∧
            ∀ c ∈ (RunE p env fuel).trace, c.isRegisterImage = false)) ∧
      (GoError.errorf "SnapshotID unavailable after import completed" ≠
          .errorf "Unable to get import snapshot task status" ∧
        ∀ e : GoError, GoError.errorf "SnapshotID unavailable after import completed" ≠
          .errorf ("Error getting import snapshot status: " ++ e.Error)) := by
  refine ⟨?_, ?_, ?_, by decide, fun e h => snapshot_error_distinct e.Error (by injection h)⟩
  · -- (1)
    intro input hin
    obtain ⟨name, dst, n, t, task, detail, rest, S, pre, _, h1, h2, h3, h4, hinput, htr, hlen,
      hnone⟩ := registerImage_origin p env fuel input hin
    exact ⟨t, task, detail, rest, S, pre, h1, h2, h3, h4,
      by rw [hinput]; exact regParams_mapping _ _ _ _, htr, hlen, hnone⟩
  · -- (2)
    intro hres
    cases hpre : preamble p env with
    | error r =>
      simp [RunE, hpre] at hres
      exact absurd hres (preamble_error p env r hpre)
    | ok v =>
      obtain ⟨name, dst, n⟩ := v
      have hur := uploadPhase_result p env dst n
      have hrun := RunE_of_preamble p env fuel name dst n hpre
      rcases hph : uploadPhase p env dst n with ⟨calls, r⟩
      rw [hph] at hur hrun
      rw [hrun] at hres ⊢
      cases r with
      | some r =>
        simp only at hres
        exact absurd hres (hur r rfl)
      | none =>
        simp only at hres ⊢
        cases himp : env.ImportSnapshot with
        | error e => simp [importAndRegister, himp] at hres
        | ok id =>
          have hst := pollLoop_stop env id fuel 0
          rcases hpl : pollLoop env id fuel 0 with ⟨pc, out⟩
          rw [hpl] at hst
          cases out with
          | stop r =>
            simp [importAndRegister, himp, hpl] at hres
            exact absurd hres (hst r rfl)
          | completed sid =>
            simp only [importAndRegister, himp, hpl] at hres ⊢
            cases sid with
            | none => simp [register_none] at hres
            | some S =>
              exact ⟨regParams p name (some S) none, by simp [register_trace]⟩
  · -- (3)
    intro name dst n id k hpre hup himp hid hprev hk
    have hcalls := uploadPhase_calls p env dst n
    rcases hph : uploadPhase p env dst n with ⟨calls, r⟩
    rw [hph] at hup hcalls
    simp only at hup
    subst hup
    have hstop : ∀ r, pollStep id (env.DescribeImportSnapshotTasks k) = some (.stop r) →
        RunE p env fuel =
          ⟨calls ++ Call.ImportSnapshot ("LinuxKit: " ++ name)
              ("LinuxKit: " ++ name ++ " disk") "raw" p.bucket dst ::
              (waitCalls id k ++ [.DescribeImportSnapshotTasks id]), r⟩ := by
      intro r hout
      rw [RunE_of_preamble p env fuel name dst n hpre, hph]
      simp only [importAndRegister, himp, pollLoop_reach env id k fuel _ hid hprev hout hk]
    have hnone : pollStep id (env.DescribeImportSnapshotTasks k) = some (.completed none) →
        RunE p env fuel =
          ⟨calls ++ Call.ImportSnapshot ("LinuxKit: " ++ name)
              ("LinuxKit: " ++ name ++ " disk") "raw" p.bucket dst ::
              (waitCalls id k ++ [.DescribeImportSnapshotTasks id]),
            .returned (some (.errorf "SnapshotID unavailable after import completed"))⟩ := by
      intro hout
      rw [RunE_of_preamble p env fuel name dst n hpre, hph]
      simp only [importAndRegister, himp, pollLoop_reach env id k fuel _ hid hprev hout hk,
        register_none, List.append_nil]
    have hnoreg : ∀ c ∈ calls ++ Call.ImportSnapshot ("LinuxKit: " ++ name)
        ("LinuxKit: " ++ name ++ " disk") "raw" p.bucket dst ::
        (waitCalls id k ++ [.DescribeImportSnapshotTasks id]), c.isRegisterImage = false := by
      intro c hc
      simp only [List.mem_append, List.mem_cons] at hc
      rcases hc with h | h | h | h
      · exact (hcalls c h).1
      · subst h; rfl
      · rcases waitCalls_mem id k c h with h' | h' <;> subst h' <;> rfl
      · simp at h; subst h; rfl
    refine ⟨?_, ?_, ?_⟩
    · rintro ⟨task, detail, rest, h1, h2, h3, h4⟩
      obtain ⟨d⟩ := task
      simp only at h2
      subst h2
      have hstep : pollStep id (env.DescribeImportSnapshotTasks k) = some (.completed none) := by
        rw [h1]; simp [pollStep, h3, h4]
      rw [hnone hstep]
      exact ⟨rfl, hnoreg⟩
    · intro h1
      have hstep : pollStep id (env.DescribeImportSnapshotTasks k) = some (.stop (.returned
          (some (.errorf "Unable to get import snapshot task status")))) := by
        rw [h1]; rfl
      rw [hstop _ hstep]
      exact ⟨rfl, hnoreg⟩
    · intro e h1
      have hstep : pollStep id (env.DescribeImportSnapshotTasks k) = some (.stop (.returned
          (some (.errorf ("Error getting import snapshot status: " ++ e.Error))))) := by
        rw [h1]; rfl
      rw [hstop _ hstep]
      exact ⟨rfl, hnoreg⟩

theorem register_needs_snapshot_witness :
    (RunE exampleParams (envThirdQuery (statusResponse "completed" none)) 3).result =
      .returned (some (.errorf "SnapshotID unavailable after import completed")) :=
  (((register_needs_snapshot exampleParams (envThirdQuery (statusResponse "completed" none))
    3).2.2.1 "img" "img.raw" (5 * 2 ^ 30) (some "import-1") 2 rfl (by decide) rfl
    (fun _ => ⟨_, rfl⟩)
    (fun t ht => by
      have hcases : t = 0 ∨ t = 1 := by omega
      rcases hcases with h | h <;> subst h <;> rfl)
    (by decide)).1 ⟨_, _, _, rfl, rfl, rfl, rfl⟩).1

/-! ## Polling and the timeout -/

theorem uploadPhase_no_sleep (p : Params) (env : Env) (dst : String) (n : Int) :
    ∀ c ∈ (uploadPhase p env dst n).1, c.isSleep = false := by
  intro c hc
  unfold uploadPhase at hc
  split_ifs at hc
  · unfold simpleUpload at hc
    split at hc <;> simp at hc <;> subst hc <;> rfl
  · obtain ⟨loopCalls, tail, r, heq, hloop, htail, _⟩ := multipartUpload_shape p env dst n
    rw [heq] at hc
    simp at hc
    rcases hc with h | h | h
    · subst h; rfl
    · exact (hloop c h).2
    · rcases htail with ht | ⟨u, parts, ht⟩
      · subst ht; simp at h
      · subst ht; simp at h; subst h; rfl

theorem filter_isSleep_waitCalls (id : Option String) (k : Nat) :
    (waitCalls id k).filter Call.isSleep = List.replicate k (.Sleep 60) := by
  induction k with
  | zero => rfl
  | succ k ih => simp [waitCalls, List.filter, Call.isSleep, ih, List.replicate_succ]

theorem filter_isDescribe_waitCalls (id : Option String) (k : Nat) :
    ((waitCalls id k).filter Call.isDescribe).length = k := by
  induction k with
  | zero => rfl
  | succ k ih => simp [waitCalls, List.filter, Call.isDescribe, ih]

theorem pollStep_not_polling (id : Option String)
    (response : Except GoError (List (Option ImportSnapshotTask))) (r : Result)
    (h : pollStep id response = some (.stop r)) : r ≠ .polling := by
  unfold pollStep at h
  repeat' split at h
  all_goals first | (simp at h; subst h; simp) | simp at h

theorem register_not_polling (p : Params) (env : Env) (name : String)
    (sid flag : Option String) : (register p env name sid flag).result ≠ .polling := by
  unfold register
  repeat' split
  all_goals simp

theorem register_no_sleep (p : Params) (env : Env) (name : String)
    (sid flag : Option String) :
    (register p env name sid flag).trace.filter Call.isSleep = [] ∧
      (register p env name sid flag).trace.filter Call.isDescribe = [] := by
  unfold register
  repeat' split
  all_goals exact ⟨rfl, rfl⟩

/-- C6 (as amended): the polling loop of `RunE` consults no timeout.  For every
invocation that reaches the polling loop, whatever its timeout: (1) if every
status response reports progress, then after any number `fuel` of iterations
the invocation has not ended, having made `fuel` status queries and `fuel`
sleeps of 60 seconds; (2) if status query number `k` is the first whose
response does not report progress, the invocation ends at that query, after
`k + 1` status queries and exactly `k` sleeps of 60 seconds. -/
theorem polling_has_no_deadline (p : Params) (env : Env) (fuel : Nat) (name dst id : String)
    (n : Int)
    (hpre : preamble p env = .ok (name, dst, n)) (hup : (uploadPhase p env dst n).2 = none)
    (himp : env.ImportSnapshot = .ok (some id)) :
    ((∀ t, inProgress (env.DescribeImportSnapshotTasks t) = true) →
        (RunE p env fuel).result = .polling ∧
          ((RunE p env fuel).trace.filter Call.isDescribe).length = fuel ∧
          (RunE p env fuel).trace.filter Call.isSleep = List.replicate fuel (.Sleep 60)) ∧
      (∀ k, (∀ t, t < k → inProgress (env.DescribeImportSnapshotTasks t) = true) →
        inProgress (env.DescribeImportSnapshotTasks k) = false → k < fuel →
        (RunE p env fuel).result ≠ .polling ∧
          ((RunE p env fuel).trace.filter Call.isDescribe).length = k + 1 ∧
          (RunE p env fuel).trace.filter Call.isSleep = List.replicate k (.Sleep 60)) := by
  have hcalls := uploadPhase_calls p env dst n
  have hsleep := uploadPhase_no_sleep p env dst n
  have hrun := RunE_of_preamble p env fuel name dst n hpre
  rcases hph : uploadPhase p env dst n with ⟨calls, r⟩
  rw [hph] at hup hcalls hsleep hrun
  simp only at hup
  subst hup
  simp only at hrun hcalls hsleep
  have hd : calls.filter Call.isDescribe = [] :=
    filter_eq_nil_of_forall _ _ (fun c hc => (hcalls c hc).2)
  have hs : calls.filter Call.isSleep = [] := filter_eq_nil_of_forall _ _ hsleep
  constructor
  · intro hall
    rw [hrun]
    simp only [importAndRegister, himp, pollLoop_all_active env id hall fuel 0]
    refine ⟨trivial, ?_, ?_⟩
    · simp [List.filter_append, hd, List.filter_cons, Call.isDescribe,
        filter_isDescribe_waitCalls]
    · simp [List.filter_append, hs, List.filter_cons, Call.isSleep, filter_isSleep_waitCalls]
  · intro k hprev hk hf
    rw [hrun]
    cases hstep : pollStep (some id) (env.DescribeImportSnapshotTasks k) with
    | none =>
      have := pollStep_eq_none _ _ hstep
      rw [hk] at this
      exact absurd this (by simp)
    | some out =>
      have hreach := pollLoop_reach env (some id) k fuel out (fun _ => ⟨id, rfl⟩) hprev hstep hf
      cases out with
      | stop r =>
        simp only [importAndRegister, himp, hreach]
        refine ⟨pollStep_not_polling _ _ r hstep, ?_, ?_⟩
        · simp [List.filter_append, hd, List.filter_cons, Call.isDescribe,
            filter_isDescribe_waitCalls]
        · simp [List.filter_append, hs, List.filter_cons, Call.isSleep,
            filter_isSleep_waitCalls]
      | completed sid =>
        simp only [importAndRegister, himp, hreach]
        refine ⟨register_not_polling _ _ _ _ _, ?_, ?_⟩
        · simp [List.filter_append, hd, List.filter_cons, Call.isDescribe,
            filter_isDescribe_waitCalls, (register_no_sleep p env name sid none).2]
        · simp [List.filter_append, hs, List.filter_cons, Call.isSleep,
            filter_isSleep_waitCalls, (register_no_sleep p env name sid none).1]

theorem polling_has_no_deadline_witness :
    (RunE { exampleParams with timeout := 120 } envAlwaysActive 5).result = .polling ∧
      ((RunE { exampleParams with timeout := 120 } envAlwaysActive 5).trace.filter
        Call.isDescribe).length = 5 ∧
      (RunE { exampleParams with timeout := 120 } envAlwaysActive 5).trace.filter Call.isSleep =
        List.replicate 5 (.Sleep 60) :=
  (polling_has_no_deadline { exampleParams with timeout := 120 } envAlwaysActive 5 "img"
    "img.raw" "import-1" (5 * 2 ^ 30) rfl (by decide) rfl).1 (fun _ => rfl)

/-- C6, counterexample: with a timeout of 120 seconds and an import task that is
`active` at every status query, `RunE` never ends, however many iterations of
the polling loop are observed; after three iterations 180 seconds of sleep have
passed and the invocation is still polling. -/
theorem polling_never_times_out :
    (¬ ∃ fuel : Nat,
        (RunE { exampleParams with timeout := 120 } envAlwaysActive fuel).result ≠ .polling) ∧
      (RunE { exampleParams with timeout := 120 } envAlwaysActive 3).trace.filter Call.isSleep =
        [.Sleep 60, .Sleep 60, .Sleep 60] := by
  refine ⟨?_, by decide⟩
  rintro ⟨fuel, h⟩
  have hrun := RunE_of_preamble { exampleParams with timeout := 120 } envAlwaysActive fuel "img"
    "img.raw" (5 * 2 ^ 30) rfl
  have hall : ∀ t, inProgress (envAlwaysActive.DescribeImportSnapshotTasks t) = true :=
    fun _ => rfl
  have hup : (uploadPhase { exampleParams with timeout := 120 } envAlwaysActive "img.raw"
      (5 * 2 ^ 30)).2 = none := by decide
  rcases hph : uploadPhase { exampleParams with timeout := 120 } envAlwaysActive "img.raw"
    (5 * 2 ^ 30) with ⟨calls, r⟩
  rw [hph] at hup hrun
  simp only at hup
  subst hup
  apply h
  rw [hrun]
  have himp : envAlwaysActive.ImportSnapshot = .ok (some "import-1") := rfl
  simp only [importAndRegister, himp, pollLoop_all_active envAlwaysActive "import-1" hall fuel 0]

/-! ## Where the code departs from the specification; the registration request -/

/-- C1, failing input: for a file of `2 ^ 53 + 1` bytes the conversion
`float64(fileSize)` rounds to `2 ^ 53`, so line 133 computes 8388608 parts where
`ceil(fileSize / 1 GiB)` is 8388609, and the plan carried out differs from the
reference plan. -/
theorem plan_wrong_above_2_53 :
    toFloat64 (2 ^ 53 + 1) = 2 ^ 53 ∧ numUploads (2 ^ 53 + 1) = 8388608 ∧
      ((2 ^ 53 + 1 + (2 ^ 30 - 1)) / 2 ^ 30 : Int) = 8388609 ∧
      uploadPlan (2 ^ 53 + 1) ≠ referencePlan (2 ^ 53 + 1) := by
  refine ⟨by decide, by decide, by decide, ?_⟩
  intro h
  have hN : numUploads (2 ^ 53 + 1) = 8388608 := by decide
  have hbig : ¬ ((2 : Int) ^ 53 + 1 ≤ minSizeForMultipartUpload) := by decide
  have hbig2 : ¬ ((2 : Int) ^ 53 + 1 ≤ 4 * 2 ^ 30) := by decide
  have hR : (((2 : Int) ^ 53 + 1 + (2 ^ 30 - 1)) / 2 ^ 30) = 8388609 := by decide
  simp only [uploadPlan, referencePlan, if_neg hbig, if_neg hbig2, hN, hR] at h
  have hlen := congrArg List.length (Plan.multipart.inj h)
  simp at hlen

/-- C2, failing input: for a file of `2 ^ 53 + 1` bytes the loop runs 8388608
times and its last range, of part index 8388607, ends at byte `2 ^ 53`: the last
byte of the file is in no range. -/
theorem last_byte_lost_above_2_53 :
    numUploads (2 ^ 53 + 1) = 8388608 ∧
      partStart 8388607 + partLength (2 ^ 53 + 1) 8388607 = 2 ^ 53 ∧
      partEnd (2 ^ 53 + 1) 8388607 < 2 ^ 53 + 1 := by
  decide

/-- C4, failing input: when the upload of part index 3 of a 5 GiB file fails,
the only call that concerns the abort of the session is
`AbortMultipartUploadRequest`, which builds a request without sending it: no
abort request reaches the storage service. -/
theorem abort_request_never_sent :
    (RunE exampleParams envPartThreeFails 1).trace.filter Call.isAbort =
        [.AbortMultipartUploadRequest "upload-1"] ∧
      (RunE exampleParams envPartThreeFails 1).trace.filter
        (fun c => c.isAbort && c.sent) = [] := by
  decide

/-- Nothing that `RunE` does about the abort of a multipart upload is sent to
the storage service, in any run. -/
theorem abort_never_sent (p : Params) (env : Env) (fuel : Nat) :
    ∀ c ∈ (RunE p env fuel).trace, c.isAbort = true → c.sent = false := by
  intro c _ h
  cases c <;> first | rfl | simp [Call.isAbort] at h

/-- With a non-empty `--sriov` value `RunE` panics at line 53, before any check
and any call. -/
theorem RunE_sriov_panics (p : Params) (env : Env) (fuel : Nat) (h : p.sriovNet ≠ "") :
    RunE p env fuel = ⟨[], .panicked⟩ := by
  simp [RunE, preamble, h]

/-- With an empty `--sriov` value, `--tpm` without `--uefi` is rejected with a
configuration error before any call; so is an empty bucket once the session is
created.  And whatever the parameters and the world, an invocation with
`--tpm` without `--uefi` or with an empty bucket makes no call at all. -/
theorem config_errors (p : Params) (env : Env) (fuel : Nat) :
    (p.sriovNet = "" → p.tpm = true → p.uefi = false →
        RunE p env fuel = ⟨[], .returned (some (.errorf "Cannot use tpm without uefi mode"))⟩) ∧
      (p.sriovNet = "" → ¬ (p.tpm = true ∧ p.uefi = false) → env.NewSession = none →
        p.bucket = "" →
        RunE p env fuel = ⟨[], .returned (some (.errorf "Please provide the bucket to use"))⟩) ∧
      ((p.tpm = true ∧ p.uefi = false) ∨ p.bucket = "" → (RunE p env fuel).trace = []) := by
  refine ⟨?_, ?_, ?_⟩
  · intro hs ht hu
    simp [RunE, preamble, hs, ht, hu]
  · intro hs hn hsess hb
    have : (!p.uefi && p.tpm) = false := by
      cases hu : p.uefi <;> cases ht : p.tpm <;> simp_all
    simp [RunE, preamble, hs, this, hsess, hb]
  · intro h
    cases hpre : preamble p env with
    | error r => simp [RunE, hpre]
    | ok v =>
      exfalso
      unfold preamble at hpre
      rcases h with ⟨ht, hu⟩ | hb
      · simp only [ht, hu] at hpre
        repeat' split at hpre
        all_goals simp_all
      · simp only [hb] at hpre
        repeat' split at hpre
        all_goals simp_all

/-- C8, failing input: with `--sriov simple` and `--tpm` without `--uefi`, in
any world, `RunE` ends in a panic (the write through the nil pointer
`sriovNetFlag` at line 53 comes before the check of line 56): it makes no call
and returns no configuration error. -/
theorem sriov_panics_before_tpm_check (env : Env) (fuel : Nat) :
    sriovTpmParams.tpm = true ∧ sriovTpmParams.uefi = false ∧
      RunE sriovTpmParams env fuel = ⟨[], .panicked⟩ :=
  ⟨rfl, rfl, RunE_sriov_panics sriovTpmParams env fuel (by decide)⟩

/-- With `--sriov simple` (and `--uefi --tpm`), in any world, `RunE` ends in a
panic at line 53 and issues no `RegisterImage`: no invocation with a non-empty
`--sriov` value reaches registration. -/
theorem sriov_never_registered (env : Env) (fuel : Nat) :
    (RunE sriovParams env fuel).result = .panicked ∧
      ∀ input, Call.RegisterImage input ∉ (RunE sriovParams env fuel).trace := by
  rw [RunE_sriov_panics sriovParams env fuel (by decide)]
  exact ⟨rfl, fun _ h => by simp at h⟩

/-- The request built at lines 257-281 with the nil `sriovNetFlag` is the
reference request for an empty `--sriov` value. -/
theorem regParams_eq_reference (p : Params) (name S : String) :
    regParams p name (some S) none = referenceRequest name S p.ena "" p.uefi p.tpm := by
  unfold regParams referenceRequest
  cases p.uefi <;> cases p.tpm <;> rfl

theorem preamble_ok (p : Params) (env : Env) (v : String × String × Int)
    (h : preamble p env = .ok v) :
    p.sriovNet = "" ∧ ¬ (p.tpm = true ∧ p.uefi = false) ∧ p.bucket ≠ "" := by
  unfold preamble at h
  repeat' split at h
  all_goals first
    | (simp at h; done)
    | (simp_all; done)
    | (simp_all; cases hu : p.uefi <;> cases ht : p.tpm <;> simp_all)

/-- C9: in every run of `RunE` that reaches registration, that is, that issues a
`RegisterImage` request `input`, this request is the only `RegisterImage` of
the run, `--tpm` implies `--uefi`, and `input` is the reference request for the
name `N` in use, the snapshot id `S` of the completed status response and the
flags: name `N`, architecture `x86_64`, root device `/dev/sda1`, one
block-device mapping of `/dev/sda1` on `S` with delete-on-termination,
`EnaSupport = ena`, boot mode `uefi` exactly when `--uefi` is set, TPM support
`v2.0` exactly when `--uefi` and `--tpm` are set, SR-IOV support absent for an
empty `--sriov` value and equal to it otherwise. -/
theorem registration_request_is_reference (p : Params) (env : Env) (fuel : Nat)
    (input : RegisterImageInput)
    (hin : Call.RegisterImage input ∈ (RunE p env fuel).trace) :
    (RunE p env fuel).trace.filter Call.isRegisterImage = [.RegisterImage input] ∧
      (p.tpm = true → p.uefi = true) ∧
      ∃ (N dst : String) (n : Int) (t : Nat) (task : ImportSnapshotTask)
        (detail : SnapshotTaskDetail) (rest : List (Option ImportSnapshotTask)) (S : String),
        preamble p env = .ok (N, dst, n) ∧
          env.DescribeImportSnapshotTasks t = .ok (some task :: rest) ∧
          task.SnapshotTaskDetail = some detail ∧ detail.Status = some "completed" ∧
          detail.SnapshotId = some S ∧
          input = referenceRequest N S p.ena p.sriovNet p.uefi p.tpm ∧
          input.Name = some N ∧ input.Architecture = some "x86_64" ∧
          input.RootDeviceName = some "/dev/sda1" ∧
          input.BlockDeviceMappings =
            [⟨some "/dev/sda1", some ⟨some true, some S, some "standard"⟩⟩] ∧
          input.EnaSupport = some p.ena ∧
          input.BootMode = (if p.uefi then some "uefi" else none) ∧
          input.TpmSupport = (if p.uefi && p.tpm then some "v2.0" else none) ∧
          input.SriovNetSupport = (if p.sriovNet = "" then none else some p.sriovNet) := by
  obtain ⟨name, dst, n, t, task, detail, rest, S, pre, hpre, h1, h2, h3, h4, hinput, htr, _,
    hnone⟩ := registerImage_origin p env fuel input hin
  obtain ⟨hs, htpm, _⟩ := preamble_ok p env _ hpre
  have href : input = referenceRequest name S p.ena p.sriovNet p.uefi p.tpm := by
    rw [hinput, hs]; exact regParams_eq_reference p name S
  refine ⟨?_, ?_, name, dst, n, t, task, detail, rest, S, hpre, h1, h2, h3, h4, href, ?_⟩
  · rw [htr, List.filter_append, filter_eq_nil_of_forall _ _ hnone]
    simp [Call.isRegisterImage]
  · intro ht
    cases hu : p.uefi with
    | true => rfl
    | false => exact absurd ⟨ht, hu⟩ htpm
  · rw [href]
    exact ⟨rfl, rfl, rfl, rfl, rfl, rfl, rfl, rfl⟩

theorem registration_request_is_reference_witness :
    (RunE uefiTpmParams exampleEnv 1).trace.filter Call.isRegisterImage =
      [.RegisterImage (referenceRequest "img" "snap-1" true "" true true)] :=
  (registration_request_is_reference uefiTpmParams exampleEnv 1
    (referenceRequest "img" "snap-1" true "" true true) (by decide)).1

/-- C10, failing input: when reading part index 2 of a 5 GiB file fails, `RunE`
returns the error of `ReadAt` as it is, which names no part, and after the
failed read it makes no call: nothing about an abort of the multipart upload
`upload-1`, which stays open. -/
theorem read_failure_not_aborted :
    RunE exampleParams envReadTwoFails 1 =
        ⟨.CreateMultipartUploadWithContext 600 "b" "img.raw" ::
            (partCalls "b" "img.raw" "upload-1" (5 * 2 ^ 30) 0 ++
              partCalls "b" "img.raw" "upload-1" (5 * 2 ^ 30) 1 ++
              [.ReadAt (2 ^ 30) (2 * 2 ^ 30)]),
          .returned (some (.lib "input/output error"))⟩ ∧
      (RunE exampleParams envReadTwoFails 1).trace.filter Call.isAbort = [] := by
  decide

end PushAWS
